import Mathlib

/-!
# KPM control plane (`kernel/kpm/kpm.c`)

A shallow embedding of the command dispatcher of `kpm.c` and of the
boundary routines it uses, followed by theorems about them.

Conventions of the embedding.

* `unsigned long` values (control code, `arg1`, `arg2`, addresses) are `Nat`;
  `int` and `long` values are `Int`.  A conversion between C integer types is
  written out (`to_int`, `to_uint`, `to_ulong`).
* A `char` is a `Nat`; the NUL byte is `0`.
* A staging buffer (a local `char` array) is a `List Byte` of its capacity.
* Every function that touches caller memory or calls a hook returns, next to
  its value, the list of the events it performed, oldest first.
* `pr_info` and `pr_err` diagnostics are left out.
-/

namespace KPM

/-! ## Constants -/

abbrev Byte := Nat

def KPM_NAME_LEN : Nat := 32
def KPM_ARGS_LEN : Nat := 1024
def KPM_PATH_LEN : Nat := 256
def KPM_BUFFER_LEN : Nat := 256
def KPM_LIST_BUFFER_LEN : Nat := 1024

def EFAULT : Int := 14
def EINVAL : Int := 22
def ENOBUFS : Int := 105

/-- Size of a C `int` in bytes (`sizeof(int)`). -/
def SIZEOF_INT : Nat := 4

/-! ## Integer conversions -/

/-- Conversion of an integer value to `int`: reduction modulo `2^32` into
`[-2^31, 2^31)`. -/
def to_int (v : Int) : Int := (v + 2 ^ 31) % 2 ^ 32 - 2 ^ 31

/-- Conversion of an integer value to `unsigned int`. -/
def to_uint (v : Int) : Nat := (v % 2 ^ 32).toNat

/-- Conversion of an integer value to `unsigned long` (64 bits). -/
def to_ulong (v : Int) : Nat := (v % 2 ^ 64).toNat

/-- The four bytes of an `int` object, least significant first (the layout of
the ARM64 targets the file is written for). -/
def int_bytes (v : Int) : List Byte :=
  let u := to_uint v
  [u % 256, u / 256 % 256, u / 65536 % 256, u / 16777216 % 256]

/-- The `int` held by four bytes, least significant first. -/
def int_of_bytes (bs : List Byte) : Int :=
  to_int (Int.ofNat (bs.getD 0 0 + 256 * bs.getD 1 0 + 65536 * bs.getD 2 0
    + 16777216 * bs.getD 3 0))

/-! ## The environment of a call -/

/-- What a call of the dispatcher finds around it.

* `ksu_access_ok addr size` is the macro of `kernel_compat.h` (a wrapper of
  the kernel's `access_ok`), taken as given.
* `user_read addr` is the byte a read of caller address `addr` yields, `none`
  when the read faults.
* `user_writable addr` tells whether a write to caller address `addr` goes
  through.
* `uninit_size` is the content of the local `int size` of `handle_kpm_info`
  at its declaration, which has no initialiser.
* `stack` holds the bytes that follow a staging buffer in the kernel stack:
  what a read past the end of the buffer finds. -/
structure Env where
  ksu_access_ok : Nat → Nat → Bool
  user_read : Nat → Option Byte
  user_writable : Nat → Bool
  uninit_size : Int
  stack : List Byte

/-- One call of a hook point, with the arguments it was given (an output
pointer is not listed). -/
inductive HookCall where
  | load_module_path (path args : List Byte) (ptr : Nat)
  | unload_module (name : List Byte) (ptr : Nat)
  | num
  | info (name buf : List Byte) (bufferSize : Int)
  | list (out : List Byte) (bufferSize : Int)
  | control (name args : List Byte) (arg_len : Int)
  | version (buf : List Byte) (bufferSize : Int)
  deriving DecidableEq, Repr

/-- What a call does to the world outside its own locals.

* `strncpy_from_user src count ret`: a string read of caller memory at `src`,
  bounded by `count`, which returned `ret`.
* `copy_to_user dest n written`: a write of `n` bytes requested at caller
  address `dest`, of which the bytes `written` were stored at `dest`,
  `dest + 1`, ...
* `copy_from_user src n ret`: a read of `n` bytes of caller memory at `src`,
  which returned `ret`, the number of bytes it could not read.
* `hook c`: a call of a hook point. -/
inductive Event where
  | strncpy_from_user (src count : Nat) (ret : Int)
  | copy_to_user (dest n : Nat) (written : List Byte)
  | copy_from_user (src n ret : Nat)
  | hook (c : HookCall)
  deriving DecidableEq, Repr

/-- Is the event a call of a hook point? -/
def Event.isHook : Event → Bool
  | .hook _ => true
  | _ => false

/-- The bytes a write of caller memory stored; none for another event. -/
def Event.written : Event → List Byte
  | .copy_to_user _ _ w => w
  | _ => []

/-! ## Kernel primitives

`strncpy_from_user` and `copy_to_user` are routines of the Linux kernel, not
of this file; they are modelled after their documented contracts. -/

/-- The loop of the kernel's `strncpy_from_user`, reading at `src` with
`count` bytes left: the value it returns and the bytes it stored in the
destination.  A NUL byte is stored and ends the copy with the number of bytes
before it; a faulting read gives `-EFAULT`; when `count` bytes were copied
without meeting a NUL the result is `count` and no NUL is stored. -/
def do_strncpy_from_user (env : Env) : Nat → Nat → Int × List Byte
  | _, 0 => (0, [])
  | src, n + 1 =>
    match env.user_read src with
    | none => (-EFAULT, [])
    | some b =>
      if b = 0 then (0, [0])
      else
        let r := do_strncpy_from_user env (src + 1) n
        (if r.1 < 0 then r.1 else r.1 + 1, b :: r.2)

/-- A buffer after `bytes` were stored from its first element on. -/
def store_bytes (dst bytes : List Byte) : List Byte :=
  bytes ++ dst.drop bytes.length

/-- The kernel's `strncpy_from_user(dst, src, count)`: the value returned and
the destination buffer afterwards. -/
def strncpy_from_user (env : Env) (dst : List Byte) (src count : Nat) :
    Int × List Byte :=
  let r := do_strncpy_from_user env src count
  (r.1, store_bytes dst r.2)

/-- Number of leading bytes of the caller range `[dest, dest + n)` that can
be written. -/
def writable_span (env : Env) : Nat → Nat → Nat
  | _, 0 => 0
  | dest, n + 1 =>
    if env.user_writable dest then writable_span env (dest + 1) n + 1 else 0

/-- The byte at offset `i` from the start of a staging buffer: inside the
buffer its element, past its end the stack bytes that follow it. -/
def kernel_byte (env : Env) (buf : List Byte) (i : Nat) : Byte :=
  (buf ++ env.stack).getD i 0

/-- The kernel's `copy_to_user(to, from, n)` with `from` a staging buffer
(`dest` stands for `to`): the number of bytes that could not be copied (the
value it returns) and the bytes stored at `dest`.  The copy stops at the first
byte of the range that cannot be written. -/
def copy_to_user (env : Env) (dest : Nat) (src : List Byte) (n : Nat) :
    Nat × List Byte :=
  let k := writable_span env dest n
  (n - k, (List.range k).map (kernel_byte env src))

/-- The leading bytes of the caller range `[src, src + n)` that can be read. -/
def readable_span (env : Env) : Nat → Nat → List Byte
  | _, 0 => []
  | src, n + 1 =>
    match env.user_read src with
    | none => []
    | some b => b :: readable_span env (src + 1) n

/-- The kernel's `copy_from_user(to, from, n)` with `from` the caller address
`src`: the number of bytes that could not be copied (the value it returns) and
the `n` bytes of the destination afterwards, the part that could not be read
filled with zeros. -/
def copy_from_user (env : Env) (src n : Nat) : Nat × List Byte :=
  let bs := readable_span env src n
  (n - bs.length, bs ++ List.replicate (n - bs.length) 0)

/-- The C library `strlen` applied to a staging buffer: the offset of the
first NUL byte, the scan running on into the stack bytes after the buffer
when the buffer holds none. -/
def c_strlen (env : Env) (buf : List Byte) : Nat :=
  (buf ++ env.stack).findIdx (fun b => decide (b = 0))

/-! ## Boundary routines of `kpm.c` -/

/-- The function `copy_string_from_user(dst, src, size)`.  The destination is
`none` for a null pointer.  Gives the value returned, the destination buffer
afterwards and the events. -/
def copy_string_from_user (env : Env) (dst : Option (List Byte)) (src size : Nat) :
    Int × Option (List Byte) × List Event :=
  match dst with
  | none => (-EINVAL, none, [])
  | some d =>
    if src = 0 ∨ size = 0 then (-EINVAL, some d, [])
    else if ¬ env.ksu_access_ok src size then (-EFAULT, some d, [])
    else
      let r := strncpy_from_user env d src size
      (r.1, some r.2, [Event.strncpy_from_user src size r.1])

/-- The function `copy_result_to_user(result_code, result)`: the value
returned and the events. -/
def copy_result_to_user (env : Env) (result_code : Nat) (result : Int) :
    Int × List Event :=
  if result_code = 0 then (-EINVAL, [])
  else if ¬ env.ksu_access_ok result_code SIZEOF_INT then (-EFAULT, [])
  else
    let w := copy_to_user env result_code (int_bytes result) SIZEOF_INT
    if w.1 ≠ 0 then (-EFAULT, [Event.copy_to_user result_code SIZEOF_INT w.2])
    else (0, [Event.copy_to_user result_code SIZEOF_INT w.2])

/-! ## Hook points -/

/-- The seven hook points.  A hook is given its arguments and the current
content of what its output pointer designates, and gives what that object (and
an output buffer, when it has one) holds when it returns.

* `sukisu_kpm_load_module_path path args ptr result`
* `sukisu_kpm_unload_module name ptr result`
* `sukisu_kpm_num result`
* `sukisu_kpm_info name buf bufferSize size`, giving the buffer and `*size`
* `sukisu_kpm_list out bufferSize result`, giving the buffer and `*result`
* `sukisu_kpm_control name args arg_len result`
* `sukisu_kpm_version buf bufferSize`, giving the buffer -/
structure Hooks where
  sukisu_kpm_load_module_path : List Byte → List Byte → Nat → Int → Int
  sukisu_kpm_unload_module : List Byte → Nat → Int → Int
  sukisu_kpm_num : Int → Int
  sukisu_kpm_info : List Byte → List Byte → Int → Int → List Byte × Int
  sukisu_kpm_list : List Byte → Int → Int → List Byte × Int
  sukisu_kpm_control : List Byte → List Byte → Int → Int → Int
  sukisu_kpm_version : List Byte → Int → List Byte

/-- The stub functions of `kpm.c`: each one logs and returns, leaving its
output parameter and its buffer as they were. -/
def stub_hooks : Hooks where
  sukisu_kpm_load_module_path := fun _ _ _ result => result
  sukisu_kpm_unload_module := fun _ _ result => result
  sukisu_kpm_num := fun result => result
  sukisu_kpm_info := fun _ buf _ size => (buf, size)
  sukisu_kpm_list := fun out _ result => (out, result)
  sukisu_kpm_control := fun _ _ _ result => result
  sukisu_kpm_version := fun buf _ => buf

/-- A staging buffer after a hook left `new` in it: the hook writes inside
the capacity it was told. -/
def hook_store (old new : List Byte) : List Byte :=
  new.take old.length ++ old.drop new.length

/-- A zero-initialised `char` array (`= { 0 }`) of the given capacity. -/
def zero_buffer (cap : Nat) : List Byte := List.replicate cap 0

/-! ## Command handlers

A handler is given the content of `*result` at entry and gives its content at
return, with the events.  Its C return value is the constant `0`, which the
dispatcher ignores. -/

/-- The outcome of a handler: `*result` at return and the events. -/
structure Outcome where
  result : Int
  events : List Event
  deriving DecidableEq, Repr

/-- The function `handle_kpm_load`. -/
def handle_kpm_load (env : Env) (hooks : Hooks) (arg1 arg2 : Nat) (result : Int) :
    Outcome :=
  let kernel_load_path := zero_buffer KPM_PATH_LEN
  let kernel_args_buffer := zero_buffer KPM_PATH_LEN
  if arg1 = 0 then ⟨-EINVAL, []⟩
  else
    let p := copy_string_from_user env (some kernel_load_path) arg1 KPM_PATH_LEN
    let path_len := p.1
    let kernel_load_path := p.2.1.getD kernel_load_path
    if path_len < 0 then ⟨to_int path_len, p.2.2⟩
    else if arg2 ≠ 0 then
      let a := copy_string_from_user env (some kernel_args_buffer) arg2 KPM_PATH_LEN
      let args_len := a.1
      let kernel_args_buffer := a.2.1.getD kernel_args_buffer
      if args_len < 0 then ⟨to_int args_len, p.2.2 ++ a.2.2⟩
      else
        ⟨to_int (hooks.sukisu_kpm_load_module_path kernel_load_path
            kernel_args_buffer 0 result),
          p.2.2 ++ a.2.2 ++
            [Event.hook (.load_module_path kernel_load_path kernel_args_buffer 0)]⟩
    else
      ⟨to_int (hooks.sukisu_kpm_load_module_path kernel_load_path
          kernel_args_buffer 0 result),
        p.2.2 ++ [Event.hook (.load_module_path kernel_load_path kernel_args_buffer 0)]⟩

/-- The function `handle_kpm_unload`. -/
def handle_kpm_unload (env : Env) (hooks : Hooks) (arg1 : Nat) (result : Int) :
    Outcome :=
  let kernel_name_buffer := zero_buffer KPM_PATH_LEN
  if arg1 = 0 then ⟨-EINVAL, []⟩
  else
    let c := copy_string_from_user env (some kernel_name_buffer) arg1 KPM_PATH_LEN
    let name_len := c.1
    let kernel_name_buffer := c.2.1.getD kernel_name_buffer
    if name_len < 0 then ⟨to_int name_len, c.2.2⟩
    else
      ⟨to_int (hooks.sukisu_kpm_unload_module kernel_name_buffer 0 result),
        c.2.2 ++ [Event.hook (.unload_module kernel_name_buffer 0)]⟩

/-- The function `handle_kpm_num`. -/
def handle_kpm_num (hooks : Hooks) (result : Int) : Outcome :=
  ⟨to_int (hooks.sukisu_kpm_num result), [Event.hook .num]⟩

/-- The function `handle_kpm_info`.  The local `size` starts with whatever
its stack slot holds (`env.uninit_size`). -/
def handle_kpm_info (env : Env) (hooks : Hooks) (arg1 arg2 : Nat) (_result : Int) :
    Outcome :=
  let kernel_name_buffer := zero_buffer KPM_BUFFER_LEN
  let buf := zero_buffer KPM_BUFFER_LEN
  let size := to_int env.uninit_size
  if arg1 = 0 ∨ arg2 = 0 then ⟨-EINVAL, []⟩
  else
    let c := copy_string_from_user env (some kernel_name_buffer) arg1 KPM_BUFFER_LEN
    let name_len := c.1
    let kernel_name_buffer := c.2.1.getD kernel_name_buffer
    if name_len < 0 then ⟨to_int name_len, c.2.2⟩
    else
      let h := hooks.sukisu_kpm_info kernel_name_buffer buf KPM_BUFFER_LEN size
      let ev := c.2.2 ++ [Event.hook (.info kernel_name_buffer buf KPM_BUFFER_LEN)]
      let buf := hook_store buf h.1
      let size := to_int h.2
      if ¬ env.ksu_access_ok arg2 (to_ulong size) then ⟨-EFAULT, ev⟩
      else
        let w := copy_to_user env arg2 buf (to_ulong size)
        ⟨to_int w.1, ev ++ [Event.copy_to_user arg2 (to_ulong size) w.2]⟩

/-- The function `handle_kpm_list`. -/
def handle_kpm_list (env : Env) (hooks : Hooks) (arg1 arg2 : Nat) (result : Int) :
    Outcome :=
  let buf := zero_buffer KPM_LIST_BUFFER_LEN
  let len := to_int arg2
  if len ≤ 0 then ⟨-EINVAL, []⟩
  else if ¬ env.ksu_access_ok arg2 (to_ulong len) then ⟨-EFAULT, []⟩
  else
    let h := hooks.sukisu_kpm_list buf KPM_LIST_BUFFER_LEN result
    let ev := [Event.hook (.list buf KPM_LIST_BUFFER_LEN)]
    let buf := hook_store buf h.1
    let result := to_int h.2
    if result > len then ⟨-ENOBUFS, ev⟩
    else
      let w := copy_to_user env arg1 buf (to_ulong len)
      if w.1 ≠ 0 then ⟨-EFAULT, ev ++ [Event.copy_to_user arg1 (to_ulong len) w.2]⟩
      else ⟨result, ev ++ [Event.copy_to_user arg1 (to_ulong len) w.2]⟩

/-- The function `handle_kpm_control`. -/
def handle_kpm_control (env : Env) (hooks : Hooks) (arg1 arg2 : Nat) (result : Int) :
    Outcome :=
  let kpm_name := zero_buffer KPM_NAME_LEN
  let kpm_args := zero_buffer KPM_ARGS_LEN
  if arg1 = 0 ∨ arg2 = 0 then ⟨-EINVAL, []⟩
  else
    let n := copy_string_from_user env (some kpm_name) arg1 KPM_NAME_LEN
    let name_len := n.1
    let kpm_name := n.2.1.getD kpm_name
    if name_len ≤ 0 then ⟨-EINVAL, n.2.2⟩
    else
      let a := copy_string_from_user env (some kpm_args) arg2 KPM_ARGS_LEN
      let arg_len := a.1
      let kpm_args := a.2.1.getD kpm_args
      ⟨to_int (hooks.sukisu_kpm_control kpm_name kpm_args arg_len result),
        n.2.2 ++ a.2.2 ++ [Event.hook (.control kpm_name kpm_args arg_len)]⟩

/-- The function `handle_kpm_version`.  The comparison `len >= outlen` is made
in `unsigned int`, and `outlen - 1` is computed there before it is stored in
the `int len`. -/
def handle_kpm_version (env : Env) (hooks : Hooks) (arg1 arg2 : Nat) (_result : Int) :
    Outcome :=
  let buffer := zero_buffer KPM_BUFFER_LEN
  let ev := [Event.hook (.version buffer KPM_BUFFER_LEN)]
  let buffer := hook_store buffer (hooks.sukisu_kpm_version buffer KPM_BUFFER_LEN)
  let outlen := to_uint arg2
  let len := to_int (c_strlen env buffer)
  let len := if to_uint len ≥ outlen then to_int (to_uint ((outlen : Int) - 1)) else len
  let n := to_ulong (len + 1)
  let w := copy_to_user env arg1 buffer n
  ⟨to_int w.1, ev ++ [Event.copy_to_user arg1 n w.2]⟩

/-! ## Dispatcher -/

/-- The command codes of `kpm.h` and the bounds of the control-code range,
taken as given. -/
structure Codes where
  SUKISU_KPM_LOAD : Nat
  SUKISU_KPM_UNLOAD : Nat
  SUKISU_KPM_NUM : Nat
  SUKISU_KPM_INFO : Nat
  SUKISU_KPM_LIST : Nat
  SUKISU_KPM_CONTROL : Nat
  SUKISU_KPM_VERSION : Nat
  CMD_KPM_CONTROL : Nat
  CMD_KPM_CONTROL_MAX : Nat

/-- The seven command codes, in the order of the `switch`. -/
def Codes.commands (k : Codes) : List Nat :=
  [k.SUKISU_KPM_LOAD, k.SUKISU_KPM_UNLOAD, k.SUKISU_KPM_NUM, k.SUKISU_KPM_INFO,
    k.SUKISU_KPM_LIST, k.SUKISU_KPM_CONTROL, k.SUKISU_KPM_VERSION]

/-- The `switch` of `sukisu_handle_kpm` with the initialisation `int res = -1`
before it: the content of `res` after it and the events. -/
def kpm_switch (k : Codes) (env : Env) (hooks : Hooks)
    (control_code arg1 arg2 : Nat) : Outcome :=
  let res : Int := -1
  if control_code = k.SUKISU_KPM_LOAD then handle_kpm_load env hooks arg1 arg2 res
  else if control_code = k.SUKISU_KPM_UNLOAD then handle_kpm_unload env hooks arg1 res
  else if control_code = k.SUKISU_KPM_NUM then handle_kpm_num hooks res
  else if control_code = k.SUKISU_KPM_INFO then handle_kpm_info env hooks arg1 arg2 res
  else if control_code = k.SUKISU_KPM_LIST then handle_kpm_list env hooks arg1 arg2 res
  else if control_code = k.SUKISU_KPM_CONTROL then
    handle_kpm_control env hooks arg1 arg2 res
  else if control_code = k.SUKISU_KPM_VERSION then
    handle_kpm_version env hooks arg1 arg2 res
  else ⟨-EINVAL, []⟩

/-- The function `sukisu_handle_kpm`: the value returned and the events. -/
def sukisu_handle_kpm (k : Codes) (env : Env) (hooks : Hooks)
    (control_code arg1 arg2 result_code : Nat) : Int × List Event :=
  let h := kpm_switch k env hooks control_code arg1 arg2
  let c := copy_result_to_user env result_code h.result
  (0, h.events ++ c.2)

/-- The function `sukisu_is_kpm_control_code`. -/
def sukisu_is_kpm_control_code (k : Codes) (control_code : Nat) : Int :=
  if control_code ≥ k.CMD_KPM_CONTROL ∧ control_code ≤ k.CMD_KPM_CONTROL_MAX then 1
  else 0

/-- Modelled from the spec: the header `kpm.h`, which fixes the seven command
codes and the bounds of the range, is not among the sources; the data model
gives the valid control codes as a closed interval.  The seven command codes
lie in `[CMD_KPM_CONTROL, CMD_KPM_CONTROL_MAX]`. -/
def Codes.commands_in_range (k : Codes) : Prop :=
  ∀ c ∈ k.commands, k.CMD_KPM_CONTROL ≤ c ∧ c ≤ k.CMD_KPM_CONTROL_MAX

/-- Modelled from the spec: `struct ksu_kpm_cmd` of `kpm.h`, which is not
among the sources; the command envelope with its four fields. -/
structure ksu_kpm_cmd where
  control_code : Nat
  arg1 : Nat
  arg2 : Nat
  result_code : Nat
  deriving DecidableEq, Repr

/-- The layout of `struct ksu_kpm_cmd`, which `kpm.h` fixes: `sizeof(cmd)` and
the fields that the bytes of the object hold.  Taken as given. -/
structure CmdLayout where
  size : Nat
  decode : List Byte → ksu_kpm_cmd

/-- The function `do_kpm`: the value returned and the events. -/
def do_kpm (k : Codes) (layout : CmdLayout) (env : Env) (hooks : Hooks) (arg : Nat) :
    Int × List Event :=
  let c := copy_from_user env arg layout.size
  let ev := [Event.copy_from_user arg layout.size c.1]
  if c.1 ≠ 0 then (-EFAULT, ev)
  else
    let cmd := layout.decode c.2
    if ¬ env.ksu_access_ok cmd.control_code SIZEOF_INT then (-EFAULT, ev)
    else if ¬ env.ksu_access_ok cmd.result_code SIZEOF_INT then (-EFAULT, ev)
    else
      let r := sukisu_handle_kpm k env hooks cmd.control_code cmd.arg1 cmd.arg2
        cmd.result_code
      (r.1, ev ++ r.2)

/-- Two environments with the same caller memory, the same `ksu_access_ok`
and the same stack bytes after a staging buffer: they differ at most in
`uninit_size`, the content of the uninitialised local of `handle_kpm_info`. -/
def Env.same_memory (a b : Env) : Prop :=
  a.ksu_access_ok = b.ksu_access_ok ∧ a.user_read = b.user_read ∧
    a.user_writable = b.user_writable ∧ a.stack = b.stack

/-! ## Sample inputs -/

/-- An environment in which every caller address is accessible, readable as
NUL and writable. -/
def env_open : Env where
  ksu_access_ok := fun _ _ => true
  user_read := fun _ => some 0
  user_writable := fun _ => true
  uninit_size := 0
  stack := []

/-- Command codes with the seven commands numbered from 28 and the range
`[28, 35]`. -/
def codes_28 : Codes := ⟨28, 29, 30, 31, 32, 33, 34, 28, 35⟩

/-- An environment in which every caller address passes `ksu_access_ok` and
reads as NUL, and no caller address can be written. -/
def env_sealed : Env where
  ksu_access_ok := fun _ _ => true
  user_read := fun _ => some 0
  user_writable := fun _ => false
  uninit_size := 0
  stack := []

/-- The stub hooks with a list hook that reports the size 3. -/
def hooks_list3 : Hooks :=
  { stub_hooks with sukisu_kpm_list := fun out _ _ => (out, 3) }

/-- The stub hooks with a version hook that leaves the string `1.2.3`. -/
def hooks_version_123 : Hooks :=
  { stub_hooks with sukisu_kpm_version := fun _ _ => [49, 46, 50, 46, 51, 0] }

/-- An environment whose caller memory holds forty bytes `A` from address
1000 on and NUL elsewhere; every address passes `ksu_access_ok` and can be
written. -/
def env_long_name : Env where
  ksu_access_ok := fun _ _ => true
  user_read := fun a => if 1000 ≤ a ∧ a < 1040 then some 65 else some 0
  user_writable := fun _ => true
  uninit_size := 0
  stack := []

/-- An environment with a user address space below `2 ^ 47`: a range passes
`ksu_access_ok` when it ends there at the latest, caller memory reads as the
string `A` at address 4096 and as NUL elsewhere, the addresses from 4096 on
can be written, and four bytes of the kernel stack follow a staging buffer. -/
def env_user : Env where
  ksu_access_ok := fun a n => decide (a + n ≤ 2 ^ 47)
  user_read := fun a => if a < 2 ^ 47 then some (if a = 4096 then 65 else 0) else none
  user_writable := fun a => decide (4096 ≤ a ∧ a < 2 ^ 47)
  uninit_size := 0
  stack := [170, 187, 204, 221]

/-- An environment like `env_open` in which no range passes `ksu_access_ok`. -/
def env_no_access : Env :=
  { env_open with ksu_access_ok := fun _ _ => false }

/-- The stub hooks with an info hook that reports the size 5. -/
def hooks_info5 : Hooks :=
  { stub_hooks with sukisu_kpm_info := fun _ buf _ _ => (buf, 5) }

/-- The stub hooks with an info hook that reports the size 260. -/
def hooks_info260 : Hooks :=
  { stub_hooks with sukisu_kpm_info := fun _ buf _ _ => (buf, 260) }

/-- The stub hooks with a list hook that reports the size 100. -/
def hooks_list100 : Hooks :=
  { stub_hooks with sukisu_kpm_list := fun out _ _ => (out, 100) }

/-- The number held by bytes, least significant first. -/
def le_word (bs : List Byte) : Nat :=
  bs.foldr (fun b acc => b + 256 * acc) 0

/-- A layout of the envelope: four 64-bit fields, least significant byte
first, in the order control code, `arg1`, `arg2`, result address. -/
def layout_u64 : CmdLayout where
  size := 32
  decode := fun bs =>
    ⟨le_word (bs.take 8), le_word ((bs.drop 8).take 8), le_word ((bs.drop 16).take 8),
      le_word ((bs.drop 24).take 8)⟩

/-- An environment like `env_open` whose caller memory holds, at address 512,
the envelope of the command 30 with the result address 4096. -/
def env_cmd : Env :=
  { env_open with
    user_read := fun a => some (if a = 512 then 30 else if a = 537 then 16 else 0) }

/-! ## Lemmas on the integer conversions -/

theorem to_int_range (v : Int) : -2 ^ 31 ≤ to_int v ∧ to_int v < 2 ^ 31 := by
  unfold to_int
  omega

theorem to_int_of_range (v : Int) (h1 : -2 ^ 31 ≤ v) (h2 : v < 2 ^ 31) : to_int v = v := by
  unfold to_int
  omega

theorem to_int_to_int (v : Int) : to_int (to_int v) = to_int v :=
  to_int_of_range _ (to_int_range v).1 (to_int_range v).2

theorem int_bytes_length (v : Int) : (int_bytes v).length = 4 := rfl

theorem int_of_bytes_int_bytes (v : Int) : int_of_bytes (int_bytes v) = to_int v := by
  unfold int_of_bytes int_bytes to_int to_uint
  simp only [List.getD_cons_zero, List.getD_cons_succ]
  have h0 : (0 : Int) ≤ v % 2 ^ 32 := Int.emod_nonneg _ (by norm_num)
  have h1 : v % 2 ^ 32 < 2 ^ 32 := Int.emod_lt_of_pos _ (by norm_num)
  generalize hu : (v % 2 ^ 32).toNat = u
  have hu' : (u : Int) = v % 2 ^ 32 := by rw [← hu]; exact Int.toNat_of_nonneg h0
  have hsum : u % 256 + 256 * (u / 256 % 256) + 65536 * (u / 65536 % 256)
      + 16777216 * (u / 16777216 % 256) = u := by omega
  rw [hsum]
  simp only [Int.ofNat_eq_coe]
  omega

/-! ## Lemmas on the kernel primitives -/

theorem do_strncpy_from_user_ret (env : Env) (count src : Nat) :
    (do_strncpy_from_user env src count).1 = -EFAULT ∨
      (0 ≤ (do_strncpy_from_user env src count).1 ∧
        (do_strncpy_from_user env src count).1 ≤ count) := by
  induction count generalizing src with
  | zero => right; simp [do_strncpy_from_user]
  | succ n ih =>
    unfold do_strncpy_from_user
    cases hr : env.user_read src with
    | none => left; rfl
    | some b =>
      by_cases hb : b = 0
      · right; simp [hb]; omega
      · simp only [hb, if_false]
        rcases ih (src + 1) with h | ⟨h1, h2⟩
        · left; rw [h]; simp [EFAULT]
        · right
          have : ¬ (do_strncpy_from_user env (src + 1) n).1 < 0 := by omega
          simp only [this, if_false]
          push_cast
          omega

theorem do_strncpy_from_user_length (env : Env) (count src : Nat) :
    (do_strncpy_from_user env src count).2.length ≤ count := by
  induction count generalizing src with
  | zero => simp [do_strncpy_from_user]
  | succ n ih =>
    unfold do_strncpy_from_user
    cases hr : env.user_read src with
    | none => simp
    | some b =>
      by_cases hb : b = 0
      · simp [hb]
      · simp only [hb, if_false, List.length_cons]
        have := ih (src + 1)
        omega

/-- When the copy succeeds, the first `ret` bytes stored are the bytes of the
caller string, none of them NUL. -/
theorem do_strncpy_from_user_bytes (env : Env) (count src : Nat)
    (h : 0 ≤ (do_strncpy_from_user env src count).1) (i : Nat)
    (hi : (i : Int) < (do_strncpy_from_user env src count).1) :
    (do_strncpy_from_user env src count).2[i]? = env.user_read (src + i) ∧
      env.user_read (src + i) ≠ some 0 ∧ env.user_read (src + i) ≠ none := by
  induction count generalizing src i with
  | zero => simp [do_strncpy_from_user] at hi; omega
  | succ n ih =>
    unfold do_strncpy_from_user at h hi ⊢
    cases hr : env.user_read src with
    | none => simp [hr, EFAULT] at h
    | some b =>
      by_cases hb : b = 0
      · simp [hr, hb] at hi; omega
      · simp only [hr, hb, if_false] at h hi ⊢
        rcases do_strncpy_from_user_ret env n (src + 1) with h' | ⟨h1, h2⟩
        · rw [h'] at h; simp [EFAULT] at h
        · have hn : ¬ (do_strncpy_from_user env (src + 1) n).1 < 0 := by omega
          simp only [hn, if_false] at hi
          cases i with
          | zero => simp [hr, hb]
          | succ j =>
            have := ih (src + 1) h1 j (by push_cast at hi; omega)
            simp only [List.getElem?_cons_succ]
            rw [show src + (j + 1) = src + 1 + j by omega]
            exact this

/-- The stored bytes hold a NUL exactly when the copy ended before `count`. -/
theorem do_strncpy_from_user_full (env : Env) (count src : Nat)
    (h : (do_strncpy_from_user env src count).1 = count) :
    (do_strncpy_from_user env src count).2.length = count ∧
      0 ∉ (do_strncpy_from_user env src count).2 := by
  induction count generalizing src with
  | zero => simp [do_strncpy_from_user]
  | succ n ih =>
    unfold do_strncpy_from_user at h ⊢
    cases hr : env.user_read src with
    | none => simp [hr, EFAULT] at h; omega
    | some b =>
      by_cases hb : b = 0
      · simp [hr, hb] at h; omega
      · simp only [hr, hb, if_false] at h ⊢
        rcases do_strncpy_from_user_ret env n (src + 1) with h' | ⟨h1, h2⟩
        · rw [h'] at h; simp [EFAULT] at h; omega
        · have hn : ¬ (do_strncpy_from_user env (src + 1) n).1 < 0 := by omega
          simp only [hn, if_false] at h
          have := ih (src + 1) (by push_cast at h; omega)
          simp only [List.length_cons, List.mem_cons, not_or]
          exact ⟨by omega, Ne.symm hb, this.2⟩

/-- What a successful copy stored: the `ret` bytes of the string alone when
`ret` reached `count`, and otherwise those bytes and a NUL after them. -/
theorem do_strncpy_from_user_stored (env : Env) (count src : Nat)
    (h : 0 ≤ (do_strncpy_from_user env src count).1) :
    ((do_strncpy_from_user env src count).2.length =
        (do_strncpy_from_user env src count).1.toNat ∧
      (do_strncpy_from_user env src count).1 = count) ∨
    ((do_strncpy_from_user env src count).2.length =
        (do_strncpy_from_user env src count).1.toNat + 1 ∧
      (do_strncpy_from_user env src count).2[(do_strncpy_from_user env src count).1.toNat]? =
        some 0) := by
  induction count generalizing src with
  | zero => left; simp [do_strncpy_from_user]
  | succ n ih =>
    unfold do_strncpy_from_user at h ⊢
    cases hr : env.user_read src with
    | none => simp [hr, EFAULT] at h
    | some b =>
      by_cases hb : b = 0
      · right; simp [hb]
      · simp only [hr, hb, if_false] at h ⊢
        rcases do_strncpy_from_user_ret env n (src + 1) with h' | ⟨h1, h2⟩
        · rw [h'] at h; simp [EFAULT] at h
        · have hn : ¬ (do_strncpy_from_user env (src + 1) n).1 < 0 := by omega
          simp only [hn, if_false, List.length_cons]
          have ht : ((do_strncpy_from_user env (src + 1) n).1 + 1).toNat =
              (do_strncpy_from_user env (src + 1) n).1.toNat + 1 := by omega
          rw [ht]
          rcases ih (src + 1) h1 with ⟨ha, hb'⟩ | ⟨ha, hb'⟩
          · left
            refine ⟨by omega, ?_⟩
            push_cast
            omega
          · right
            refine ⟨by omega, ?_⟩
            simpa using hb'

theorem store_bytes_length (dst bytes : List Byte) (h : bytes.length ≤ dst.length) :
    (store_bytes dst bytes).length = dst.length := by
  simp [store_bytes]; omega

theorem store_bytes_getElem?_lt (dst bytes : List Byte) (i : Nat) (h : i < bytes.length) :
    (store_bytes dst bytes)[i]? = bytes[i]? := by
  simp [store_bytes, List.getElem?_append_left h]

theorem store_bytes_getElem?_ge (dst bytes : List Byte) (i : Nat) (h : bytes.length ≤ i) :
    (store_bytes dst bytes)[i]? = dst[i]? := by
  simp only [store_bytes]
  rw [List.getElem?_append_right h, List.getElem?_drop]
  congr 1
  omega

theorem writable_span_le (env : Env) (n dest : Nat) : writable_span env dest n ≤ n := by
  induction n generalizing dest with
  | zero => simp [writable_span]
  | succ m ih =>
    unfold writable_span
    split
    · have := ih (dest + 1); omega
    · omega

theorem writable_span_eq_of_writable (env : Env) (n dest : Nat)
    (h : ∀ i, i < n → env.user_writable (dest + i) = true) :
    writable_span env dest n = n := by
  induction n generalizing dest with
  | zero => simp [writable_span]
  | succ m ih =>
    unfold writable_span
    have h0 : env.user_writable dest = true := by simpa using h 0 (by omega)
    have := ih (dest + 1) (fun i hi => by
      have := h (i + 1) (by omega)
      rwa [show dest + (i + 1) = dest + 1 + i by omega] at this)
    simp [h0, this]

theorem writable_span_eq_zero (env : Env) (n dest : Nat)
    (h : env.user_writable dest = false) : writable_span env dest n = 0 := by
  cases n with
  | zero => rfl
  | succ m => simp [writable_span, h]

/-- Inside the staging buffer, what `copy_to_user` reads is the buffer. -/
theorem map_kernel_byte_eq_take (env : Env) (src : List Byte) (k : Nat)
    (h : k ≤ src.length) : (List.range k).map (kernel_byte env src) = src.take k := by
  apply List.ext_getElem
  · simp; omega
  · intro i h1 h2
    simp only [List.length_map, List.length_range] at h1
    simp only [List.getElem_map, List.getElem_range, kernel_byte, List.getElem_take]
    have hi : i < (src ++ env.stack).length := by simp; omega
    rw [List.getD_eq_getElem _ _ hi, List.getElem_append_left (by omega)]

theorem copy_to_user_length (env : Env) (dest n : Nat) (src : List Byte) :
    (copy_to_user env dest src n).2.length = n - (copy_to_user env dest src n).1 := by
  have := writable_span_le env n dest
  simp [copy_to_user]
  omega

/-- A copy that reports success stored all `n` bytes, and they are the first
`n` bytes of the buffer when the buffer has that many. -/
theorem copy_to_user_ok (env : Env) (dest n : Nat) (src : List Byte)
    (h : (copy_to_user env dest src n).1 = 0) (hn : n ≤ src.length) :
    (copy_to_user env dest src n).2 = src.take n := by
  have hle := writable_span_le env n dest
  simp only [copy_to_user] at h ⊢
  have hk : writable_span env dest n = n := by omega
  rw [hk]
  exact map_kernel_byte_eq_take env src n hn

theorem copy_to_user_of_writable (env : Env) (dest n : Nat) (src : List Byte)
    (h : ∀ i, i < n → env.user_writable (dest + i) = true) :
    (copy_to_user env dest src n).1 = 0 := by
  simp [copy_to_user, writable_span_eq_of_writable env n dest h]

theorem copy_result_to_user_of_ok (env : Env) (result_code : Nat) (result : Int)
    (h : result_code ≠ 0) (hacc : env.ksu_access_ok result_code SIZEOF_INT = true)
    (hw : (copy_to_user env result_code (int_bytes result) SIZEOF_INT).1 = 0) :
    copy_result_to_user env result_code result =
      (0, [Event.copy_to_user result_code SIZEOF_INT (int_bytes result)]) := by
  have hb := copy_to_user_ok env result_code SIZEOF_INT (int_bytes result) hw
    (by simp [SIZEOF_INT, int_bytes_length])
  have ht : (int_bytes result).take SIZEOF_INT = int_bytes result := by
    simp [SIZEOF_INT, int_bytes]
  simp [copy_result_to_user, h, hacc, hw, hb, ht]

/-! ## The boundary routines -/

/-- C7. `copy_string_from_user(dst, src, size)` returns `-EINVAL` exactly when
`src` is null, `dst` is null or `size` is 0.  Otherwise it returns `-EFAULT`
when `ksu_access_ok(src, size)` fails, without touching caller memory or the
buffer.  Otherwise it returns the result of `strncpy_from_user`, which is
`-EFAULT` or non-negative; a non-negative result `n` is at most `size` and is
the number of bytes copied: the first `n` bytes of the buffer are the bytes of
the caller string, none of them NUL, a NUL follows them when `n < size`, and
the buffer is unchanged after index `n`.  In every case the buffer is
unchanged from index `size` on. -/
theorem copy_string_from_user_contract (env : Env) (dst : Option (List Byte))
    (src size : Nat) :
    ((copy_string_from_user env dst src size).1 = -EINVAL ↔
      (src = 0 ∨ dst = none ∨ size = 0)) ∧
    (∀ d, dst = some d → src ≠ 0 → size ≠ 0 →
      (env.ksu_access_ok src size = false →
        copy_string_from_user env dst src size = (-EFAULT, some d, [])) ∧
      (env.ksu_access_ok src size = true →
        copy_string_from_user env dst src size =
          ((strncpy_from_user env d src size).1, some (strncpy_from_user env d src size).2,
            [Event.strncpy_from_user src size (strncpy_from_user env d src size).1]) ∧
        ((strncpy_from_user env d src size).1 = -EFAULT ∨
          0 ≤ (strncpy_from_user env d src size).1) ∧
        (0 ≤ (strncpy_from_user env d src size).1 →
          (strncpy_from_user env d src size).1 ≤ size ∧
          (∀ i : Nat, (i : Int) < (strncpy_from_user env d src size).1 →
            (strncpy_from_user env d src size).2[i]? = env.user_read (src + i) ∧
            env.user_read (src + i) ≠ some 0 ∧ env.user_read (src + i) ≠ none) ∧
          ((strncpy_from_user env d src size).1 < size →
            (strncpy_from_user env d src size).2[(strncpy_from_user env d src size).1.toNat]? =
              some 0) ∧
          (∀ i : Nat, (strncpy_from_user env d src size).1 < i →
            (strncpy_from_user env d src size).2[i]? = d[i]?)))) ∧
    (∀ d d', dst = some d → (copy_string_from_user env dst src size).2.1 = some d' →
      ∀ i, size ≤ i → d'[i]? = d[i]?) := by
  have hlen := do_strncpy_from_user_length env size src
  have hret := do_strncpy_from_user_ret env size src
  refine ⟨?_, ?_, ?_⟩
  · cases dst with
    | none => simp [copy_string_from_user]
    | some d =>
      by_cases h0 : src = 0 ∨ size = 0
      · have : src = 0 ∨ size = 0 := h0
        simp only [copy_string_from_user, h0, if_true, true_iff]
        tauto
      · have h0' : ¬ (src = 0 ∨ some d = none ∨ size = 0) := by
          simpa using h0
        simp only [copy_string_from_user, h0, if_false, h0', iff_false]
        by_cases hacc : env.ksu_access_ok src size = true
        · simp only [hacc, not_true_eq_false, if_false, strncpy_from_user]
          rcases hret with h | ⟨h1, _⟩
          · rw [h]; simp [EFAULT, EINVAL]
          · intro h; rw [h] at h1; simp [EINVAL] at h1
        · simp [hacc, EFAULT, EINVAL]
  · intro d hd hsrc hsize
    subst hd
    have h0 : ¬ (src = 0 ∨ size = 0) := by tauto
    refine ⟨?_, ?_⟩
    · intro hacc
      simp [copy_string_from_user, h0, hacc]
    · intro hacc
      refine ⟨by simp [copy_string_from_user, h0, hacc], ?_, ?_⟩
      · simp only [strncpy_from_user]
        rcases hret with h | ⟨h1, _⟩
        · exact Or.inl h
        · exact Or.inr h1
      · intro hnn
        simp only [strncpy_from_user] at hnn ⊢
        rcases hret with h | ⟨h1, h2⟩
        · rw [h] at hnn; simp [EFAULT] at hnn
        · have hst := do_strncpy_from_user_stored env size src h1
          refine ⟨h2, ?_, ?_, ?_⟩
          · intro i hi
            have hb := do_strncpy_from_user_bytes env size src h1 i hi
            have hil : i < (do_strncpy_from_user env src size).2.length := by
              by_contra hcon
              have := hb.1
              rw [List.getElem?_eq_none (by omega)] at this
              exact hb.2.2 this.symm
            rw [store_bytes_getElem?_lt _ _ _ hil]
            exact hb
          · intro hlt
            rcases hst with ⟨_, hb⟩ | ⟨ha, hb⟩
            · omega
            · rw [store_bytes_getElem?_lt _ _ _ (by omega)]
              exact hb
          · intro i hi
            exact store_bytes_getElem?_ge _ _ _ (by rcases hst with ⟨ha, _⟩ | ⟨ha, _⟩ <;> omega)
  · intro d d' hd hd' i hi
    subst hd
    by_cases h0 : src = 0 ∨ size = 0
    · simp only [copy_string_from_user, h0, if_true, Option.some.injEq] at hd'
      rw [← hd']
    · by_cases hacc : env.ksu_access_ok src size = true
      · simp only [copy_string_from_user, h0, if_false, hacc, not_true_eq_false,
          strncpy_from_user, Option.some.injEq] at hd'
        rw [← hd']
        exact store_bytes_getElem?_ge _ _ _ (by omega)
      · simp [copy_string_from_user, h0, hacc] at hd'
        rw [← hd']

/-- C9. `copy_result_to_user(result_code, result)` returns `-EINVAL` and
writes nothing when `result_code` is 0; returns `-EFAULT` and writes nothing
when `ksu_access_ok(result_code, sizeof(int))` fails; otherwise it writes the
four bytes of `result` at `result_code` and returns 0 when `copy_to_user`
reports success, and returns `-EFAULT` when `copy_to_user` reports a failure.
It returns no other value. -/
theorem copy_result_to_user_contract (env : Env) (result_code : Nat) (result : Int) :
    (result_code = 0 → copy_result_to_user env result_code result = (-EINVAL, [])) ∧
    (result_code ≠ 0 → env.ksu_access_ok result_code SIZEOF_INT = false →
      copy_result_to_user env result_code result = (-EFAULT, [])) ∧
    (result_code ≠ 0 → env.ksu_access_ok result_code SIZEOF_INT = true →
      ((copy_to_user env result_code (int_bytes result) SIZEOF_INT).1 = 0 →
        copy_result_to_user env result_code result =
          (0, [Event.copy_to_user result_code SIZEOF_INT (int_bytes result)])) ∧
      ((copy_to_user env result_code (int_bytes result) SIZEOF_INT).1 ≠ 0 →
        (copy_result_to_user env result_code result).1 = -EFAULT)) ∧
    ((copy_result_to_user env result_code result).1 = -EINVAL ∨
      (copy_result_to_user env result_code result).1 = -EFAULT ∨
      (copy_result_to_user env result_code result).1 = 0) := by
  refine ⟨?_, ?_, ?_, ?_⟩
  · intro h
    simp [copy_result_to_user, h]
  · intro h hacc
    simp [copy_result_to_user, h, hacc]
  · intro h hacc
    refine ⟨?_, ?_⟩
    · intro hw
      exact copy_result_to_user_of_ok env result_code result h hacc hw
    · intro hw
      simp [copy_result_to_user, h, hacc, hw]
  · unfold copy_result_to_user
    split
    · simp
    · split
      · simp
      · simp only []
        split <;> simp

/-! ## The dispatcher -/

set_option maxRecDepth 100000

theorem kpm_switch_unknown (k : Codes) (env : Env) (hooks : Hooks)
    (control_code arg1 arg2 : Nat) (h : control_code ∉ k.commands) :
    kpm_switch k env hooks control_code arg1 arg2 = ⟨-EINVAL, []⟩ := by
  simp only [Codes.commands, List.mem_cons, List.mem_singleton, not_or, List.mem_nil_iff,
    or_false] at h
  obtain ⟨h1, h2, h3, h4, h5, h6, h7⟩ := h
  simp [kpm_switch, h1, h2, h3, h4, h5, h6, h7]

theorem copy_result_to_user_no_hook (env : Env) (result_code : Nat) (result : Int) :
    ∀ e ∈ (copy_result_to_user env result_code result).2, e.isHook = false := by
  unfold copy_result_to_user
  split
  · simp
  · split
    · simp
    · simp only []
      split <;> simp [Event.isHook]

/-- C1. For a control code that is not one of the seven command codes (as is
every code outside `[CMD_KPM_CONTROL, CMD_KPM_CONTROL_MAX]` when the seven
codes lie in that range), whatever `arg1` and `arg2`, the `switch` of
`sukisu_handle_kpm` leaves `-EINVAL` in `res` and performs nothing, the
function returns 0 after relaying `-EINVAL` through `copy_result_to_user`, and
no event of the call is a hook call. -/
theorem sukisu_handle_kpm_unknown_code (k : Codes) (env : Env) (hooks : Hooks)
    (control_code arg1 arg2 result_code : Nat)
    (h : control_code ∉ k.commands ∨
      (k.commands_in_range ∧
        ¬ (k.CMD_KPM_CONTROL ≤ control_code ∧ control_code ≤ k.CMD_KPM_CONTROL_MAX))) :
    kpm_switch k env hooks control_code arg1 arg2 = ⟨-EINVAL, []⟩ ∧
    sukisu_handle_kpm k env hooks control_code arg1 arg2 result_code =
      (0, (copy_result_to_user env result_code (-EINVAL)).2) ∧
    (∀ e ∈ (sukisu_handle_kpm k env hooks control_code arg1 arg2 result_code).2,
      e.isHook = false) := by
  have hn : control_code ∉ k.commands := by
    rcases h with h | ⟨hr, ho⟩
    · exact h
    · intro hc
      exact ho (hr control_code hc)
  have hs := kpm_switch_unknown k env hooks control_code arg1 arg2 hn
  refine ⟨hs, ?_, ?_⟩
  · simp [sukisu_handle_kpm, hs]
  · simp only [sukisu_handle_kpm, hs, List.nil_append]
    exact copy_result_to_user_no_hook env result_code (-EINVAL)

/-- The theorem `sukisu_handle_kpm_unknown_code` at control code 99 with the
commands numbered 28 to 34. -/
theorem sukisu_handle_kpm_unknown_code_witness :
    (99 ∉ codes_28.commands ∨
      (codes_28.commands_in_range ∧
        ¬ (codes_28.CMD_KPM_CONTROL ≤ 99 ∧ 99 ≤ codes_28.CMD_KPM_CONTROL_MAX))) ∧
    sukisu_handle_kpm codes_28 env_open stub_hooks 99 1 2 4096 =
      (0, [Event.copy_to_user 4096 4 [234, 255, 255, 255]]) := by
  have h : 99 ∉ codes_28.commands ∨
      (codes_28.commands_in_range ∧
        ¬ (codes_28.CMD_KPM_CONTROL ≤ 99 ∧ 99 ≤ codes_28.CMD_KPM_CONTROL_MAX)) :=
    Or.inl (by decide)
  refine ⟨h, ?_⟩
  rw [(sukisu_handle_kpm_unknown_code codes_28 env_open stub_hooks 99 1 2 4096 h).2.1]
  decide

theorem to_int_neg_EINVAL : to_int (-EINVAL) = -EINVAL := by decide
theorem to_int_neg_EFAULT : to_int (-EFAULT) = -EFAULT := by decide
theorem to_int_neg_ENOBUFS : to_int (-ENOBUFS) = -ENOBUFS := by decide

theorem handle_kpm_load_result_range (env : Env) (hooks : Hooks) (arg1 arg2 : Nat)
    (res : Int) :
    to_int (handle_kpm_load env hooks arg1 arg2 res).result =
      (handle_kpm_load env hooks arg1 arg2 res).result := by
  simp only [handle_kpm_load]
  split_ifs <;> simp only [to_int_to_int, to_int_neg_EINVAL]

theorem handle_kpm_unload_result_range (env : Env) (hooks : Hooks) (arg1 : Nat)
    (res : Int) :
    to_int (handle_kpm_unload env hooks arg1 res).result =
      (handle_kpm_unload env hooks arg1 res).result := by
  simp only [handle_kpm_unload]
  split_ifs <;> simp only [to_int_to_int, to_int_neg_EINVAL]

theorem handle_kpm_info_result_range (env : Env) (hooks : Hooks) (arg1 arg2 : Nat)
    (res : Int) :
    to_int (handle_kpm_info env hooks arg1 arg2 res).result =
      (handle_kpm_info env hooks arg1 arg2 res).result := by
  simp only [handle_kpm_info]
  split_ifs <;> simp only [to_int_to_int, to_int_neg_EINVAL, to_int_neg_EFAULT]

theorem handle_kpm_list_result_range (env : Env) (hooks : Hooks) (arg1 arg2 : Nat)
    (res : Int) :
    to_int (handle_kpm_list env hooks arg1 arg2 res).result =
      (handle_kpm_list env hooks arg1 arg2 res).result := by
  simp only [handle_kpm_list]
  split_ifs <;>
    simp only [to_int_to_int, to_int_neg_EINVAL, to_int_neg_EFAULT, to_int_neg_ENOBUFS]

theorem handle_kpm_control_result_range (env : Env) (hooks : Hooks) (arg1 arg2 : Nat)
    (res : Int) :
    to_int (handle_kpm_control env hooks arg1 arg2 res).result =
      (handle_kpm_control env hooks arg1 arg2 res).result := by
  simp only [handle_kpm_control]
  split_ifs <;> simp only [to_int_to_int, to_int_neg_EINVAL]

theorem handler_result_range (k : Codes) (env : Env) (hooks : Hooks)
    (control_code arg1 arg2 : Nat) :
    to_int (kpm_switch k env hooks control_code arg1 arg2).result =
      (kpm_switch k env hooks control_code arg1 arg2).result := by
  simp only [kpm_switch]
  split_ifs
  · exact handle_kpm_load_result_range env hooks arg1 arg2 (-1)
  · exact handle_kpm_unload_result_range env hooks arg1 (-1)
  · simp only [handle_kpm_num, to_int_to_int]
  · exact handle_kpm_info_result_range env hooks arg1 arg2 (-1)
  · exact handle_kpm_list_result_range env hooks arg1 arg2 (-1)
  · exact handle_kpm_control_result_range env hooks arg1 arg2 (-1)
  · simp only [handle_kpm_version, to_int_to_int]
  · exact to_int_neg_EINVAL

theorem do_strncpy_from_user_same (a b : Env) (h : a.user_read = b.user_read)
    (n src : Nat) : do_strncpy_from_user a src n = do_strncpy_from_user b src n := by
  induction n generalizing src with
  | zero => rfl
  | succ m ih =>
    simp only [do_strncpy_from_user, h]
    cases b.user_read src with
    | none => rfl
    | some c => simp only [ih]

theorem writable_span_same (a b : Env) (h : a.user_writable = b.user_writable)
    (n dest : Nat) : writable_span a dest n = writable_span b dest n := by
  induction n generalizing dest with
  | zero => rfl
  | succ m ih => simp only [writable_span, h, ih]

theorem copy_string_from_user_same (a b : Env) (h : a.same_memory b) :
    copy_string_from_user a = copy_string_from_user b := by
  funext dst src size
  cases dst with
  | none => rfl
  | some d =>
    simp only [copy_string_from_user, strncpy_from_user, h.1,
      do_strncpy_from_user_same a b h.2.1]

theorem kernel_byte_same (a b : Env) (h : a.same_memory b) :
    kernel_byte a = kernel_byte b := by
  funext buf i
  simp only [kernel_byte, h.2.2.2]

theorem copy_to_user_same (a b : Env) (h : a.same_memory b) :
    copy_to_user a = copy_to_user b := by
  funext dest src n
  simp only [copy_to_user, kernel_byte_same a b h, writable_span_same a b h.2.2.1]

theorem c_strlen_same (a b : Env) (h : a.same_memory b) : c_strlen a = c_strlen b := by
  funext buf
  simp only [c_strlen, h.2.2.2]

theorem copy_result_to_user_same (a b : Env) (h : a.same_memory b) :
    copy_result_to_user a = copy_result_to_user b := by
  funext result_code result
  simp only [copy_result_to_user, h.1, copy_to_user_same a b h]

/-- Apart from INFO, what the `switch` does is the same in two environments
that differ only in the content of the uninitialised local `size`. -/
theorem kpm_switch_same (k : Codes) (a b : Env) (hooks : Hooks)
    (control_code arg1 arg2 : Nat) (h : a.same_memory b)
    (hinfo : control_code ≠ k.SUKISU_KPM_INFO) :
    kpm_switch k a hooks control_code arg1 arg2 =
      kpm_switch k b hooks control_code arg1 arg2 := by
  simp only [kpm_switch, hinfo, if_false, handle_kpm_load, handle_kpm_unload,
    handle_kpm_list, handle_kpm_control, handle_kpm_version, h.1,
    copy_string_from_user_same a b h, copy_to_user_same a b h, c_strlen_same a b h]

/-- C2, as the code has it. When the result address is not null, passes
`ksu_access_ok` for `sizeof(int)` and its four bytes can be written, then for
every control code, `arg1` and `arg2` the function `sukisu_handle_kpm`
returns 0, and its events are those of the selected handler followed by one
write of four bytes at the result address: the relay writes once, after the
handler has returned, and its write is the last event of the call.  The bytes
written are those of the value the `switch` left in `res`, which they decode
back to; it is `-EINVAL` for an unrecognised code.  For every control code
other than INFO the whole call is the same whatever the uninitialised local
of `handle_kpm_info` holds: the value written does not come from it. -/
theorem sukisu_handle_kpm_result_relay (k : Codes) (env : Env) (hooks : Hooks)
    (control_code arg1 arg2 result_code : Nat)
    (hnull : result_code ≠ 0)
    (hacc : env.ksu_access_ok result_code SIZEOF_INT = true)
    (hw : ∀ i, i < SIZEOF_INT → env.user_writable (result_code + i) = true) :
    (sukisu_handle_kpm k env hooks control_code arg1 arg2 result_code).1 = 0 ∧
    (sukisu_handle_kpm k env hooks control_code arg1 arg2 result_code).2 =
      (kpm_switch k env hooks control_code arg1 arg2).events ++
        [Event.copy_to_user result_code SIZEOF_INT
          (int_bytes (kpm_switch k env hooks control_code arg1 arg2).result)] ∧
    int_of_bytes (int_bytes (kpm_switch k env hooks control_code arg1 arg2).result) =
      (kpm_switch k env hooks control_code arg1 arg2).result ∧
    (control_code ∉ k.commands →
      (kpm_switch k env hooks control_code arg1 arg2).result = -EINVAL) ∧
    (control_code ≠ k.SUKISU_KPM_INFO → ∀ env' : Env, env'.same_memory env →
      sukisu_handle_kpm k env' hooks control_code arg1 arg2 result_code =
        sukisu_handle_kpm k env hooks control_code arg1 arg2 result_code) := by
  refine ⟨rfl, ?_, ?_, ?_, ?_⟩
  · have hc := copy_to_user_of_writable env result_code SIZEOF_INT
      (int_bytes (kpm_switch k env hooks control_code arg1 arg2).result) hw
    have := copy_result_to_user_of_ok env result_code
      (kpm_switch k env hooks control_code arg1 arg2).result hnull hacc hc
    simp [sukisu_handle_kpm, this]
  · rw [int_of_bytes_int_bytes]
    exact handler_result_range k env hooks control_code arg1 arg2
  · intro h
    rw [kpm_switch_unknown k env hooks control_code arg1 arg2 h]
  · intro hinfo env' h
    simp only [sukisu_handle_kpm, kpm_switch_same k env' env hooks control_code arg1 arg2 h
      hinfo, copy_result_to_user_same env' env h]

/-- The theorem `sukisu_handle_kpm_result_relay` at the command NUM with the
stub hooks: the hook is called, then `-1` is written at the result address. -/
theorem sukisu_handle_kpm_result_relay_witness :
    sukisu_handle_kpm codes_28 env_open stub_hooks 30 0 0 4096 =
      (0, [Event.hook HookCall.num, Event.copy_to_user 4096 4 [255, 255, 255, 255]]) := by
  have h := sukisu_handle_kpm_result_relay codes_28 env_open stub_hooks 30 0 0 4096
    (by decide) rfl (fun _ _ => rfl)
  exact Prod.ext h.1 (h.2.1.trans (by decide))

/-- C2 as stated fails, in three ways. The result address 4096 is not null
and passes `ksu_access_ok`, but cannot be written: the relay stores nothing
there.  With VERSION and `arg1` equal to the result address, the address is
written twice, by the copy of the version string and by the relay.  With INFO,
the stub hooks and an output buffer that cannot be written, the integer
relayed to a writable result address is the content of the uninitialised
local `size`: 5 in one run and 7 in another, all inputs being the same. -/
theorem sukisu_handle_kpm_result_relay_fails :
    (4096 ≠ 0 ∧ env_sealed.ksu_access_ok 4096 SIZEOF_INT = true ∧
      sukisu_handle_kpm codes_28 env_sealed stub_hooks 30 0 0 4096 =
        (0, [Event.hook HookCall.num, Event.copy_to_user 4096 4 []])) ∧
    (sukisu_handle_kpm codes_28 env_open hooks_version_123 34 4096 8 4096).2.tail =
      [Event.copy_to_user 4096 6 [49, 46, 50, 46, 51, 0],
        Event.copy_to_user 4096 4 [0, 0, 0, 0]] ∧
    (env_user.ksu_access_ok 8192 SIZEOF_INT = true ∧
      (∀ i, i < SIZEOF_INT → env_user.user_writable (8192 + i) = true) ∧
      (sukisu_handle_kpm codes_28 { env_user with uninit_size := 5 } stub_hooks 31 4096 100
        8192).2.getLast? = some (Event.copy_to_user 8192 4 [5, 0, 0, 0]) ∧
      (sukisu_handle_kpm codes_28 { env_user with uninit_size := 7 } stub_hooks 31 4096 100
        8192).2.getLast? = some (Event.copy_to_user 8192 4 [7, 0, 0, 0])) := by
  decide

/-! ## The handlers -/

/-- C3. With `arg1 = 0`, `handle_kpm_load` and `handle_kpm_unload` set the
result to `-EINVAL` and perform no event; with `arg1 = 0` or `arg2 = 0`, so do
`handle_kpm_info` and `handle_kpm_control`: no read and no write of caller
memory, no hook call. -/
theorem handlers_reject_null (env : Env) (hooks : Hooks) (arg1 arg2 : Nat)
    (result : Int) (h : arg1 = 0 ∨ arg2 = 0) :
    (arg1 = 0 →
      handle_kpm_load env hooks arg1 arg2 result = ⟨-EINVAL, []⟩ ∧
      handle_kpm_unload env hooks arg1 result = ⟨-EINVAL, []⟩) ∧
    handle_kpm_info env hooks arg1 arg2 result = ⟨-EINVAL, []⟩ ∧
    handle_kpm_control env hooks arg1 arg2 result = ⟨-EINVAL, []⟩ := by
  refine ⟨?_, ?_, ?_⟩
  · intro h1
    simp [handle_kpm_load, handle_kpm_unload, h1]
  · simp [handle_kpm_info, h]
  · simp [handle_kpm_control, h]

/-- The theorem `handlers_reject_null` at `arg1 = 0`, `arg2 = 7`. -/
theorem handlers_reject_null_witness :
    handle_kpm_load env_open stub_hooks 0 7 (-1) = ⟨-22, []⟩ ∧
    handle_kpm_unload env_open stub_hooks 0 (-1) = ⟨-22, []⟩ ∧
    handle_kpm_info env_open stub_hooks 0 7 (-1) = ⟨-22, []⟩ ∧
    handle_kpm_control env_open stub_hooks 0 7 (-1) = ⟨-22, []⟩ :=
  have h := handlers_reject_null env_open stub_hooks 0 7 (-1) (Or.inl rfl)
  ⟨(h.1 rfl).1, (h.1 rfl).2, h.2.1, h.2.2⟩

/-- A capacity that is not positive as an `int` is rejected by
`handle_kpm_list` with `-EINVAL`, before any event. -/
theorem handle_kpm_list_bad_capacity (env : Env) (hooks : Hooks) (arg1 arg2 : Nat)
    (result : Int) (h : to_int arg2 ≤ 0) :
    handle_kpm_list env hooks arg1 arg2 result = ⟨-EINVAL, []⟩ := by
  simp [handle_kpm_list, h]

/-- C4, at the input `arg1 = 0`, `arg2 = 16`. `handle_kpm_list` does not test
`arg1`: with a null output address and the capacity 16 it calls the list hook,
attempts the copy of 16 bytes to address 0 and, the copy failing, leaves
`-EFAULT` in the result, not `-EINVAL`. -/
theorem handle_kpm_list_null_buffer :
    handle_kpm_list env_sealed stub_hooks 0 16 (-1) =
      ⟨-EFAULT, [Event.hook (.list (zero_buffer KPM_LIST_BUFFER_LEN) KPM_LIST_BUFFER_LEN),
        Event.copy_to_user 0 16 []]⟩ := by
  decide

theorem to_ulong_to_int_pos (arg2 : Nat) (h : 0 < to_int arg2) :
    (to_ulong (to_int arg2) : Int) = to_int arg2 := by
  have hr := to_int_range arg2
  unfold to_ulong
  rw [Int.toNat_of_nonneg (Int.emod_nonneg _ (by norm_num))]
  omega

theorem hook_store_length (old new : List Byte) :
    (hook_store old new).length = old.length := by
  simp [hook_store]
  omega

/-- C5, as the code has it. For LIST with a capacity `C = (int)arg2 > 0`
whose destination range `[arg1, arg1 + C)` passes `ksu_access_ok`, in a call
that the accessibility test of the handler lets through, and a list hook that
leaves the size `S` in the result: if `S > C` the result is `-ENOBUFS` and the
hook call is the only event; if `S ≤ C`, `C` is at most the 1024 bytes of the
staging buffer and `copy_to_user` reports success, exactly `C` bytes are
written at `arg1`, the first `C` bytes of the staging buffer as the hook left
it, and the result remains `S`; if `S ≤ C` and `copy_to_user` reports a
failure, the result is `-EFAULT`. -/
theorem handle_kpm_list_copy_out (env : Env) (hooks : Hooks) (arg1 arg2 : Nat)
    (result : Int) (hpos : 0 < to_int arg2)
    (hchk : env.ksu_access_ok arg1 (to_ulong (to_int arg2)) = true ∧
      env.ksu_access_ok arg2 (to_ulong (to_int arg2)) = true) :
    (to_ulong (to_int arg2) : Int) = to_int arg2 ∧
    (to_int arg2 <
        to_int (hooks.sukisu_kpm_list (zero_buffer KPM_LIST_BUFFER_LEN)
          KPM_LIST_BUFFER_LEN result).2 →
      handle_kpm_list env hooks arg1 arg2 result =
        ⟨-ENOBUFS,
          [Event.hook (.list (zero_buffer KPM_LIST_BUFFER_LEN) KPM_LIST_BUFFER_LEN)]⟩) ∧
    (to_int (hooks.sukisu_kpm_list (zero_buffer KPM_LIST_BUFFER_LEN)
          KPM_LIST_BUFFER_LEN result).2 ≤ to_int arg2 →
      to_ulong (to_int arg2) ≤ KPM_LIST_BUFFER_LEN →
      (copy_to_user env arg1
        (hook_store (zero_buffer KPM_LIST_BUFFER_LEN)
          (hooks.sukisu_kpm_list (zero_buffer KPM_LIST_BUFFER_LEN)
            KPM_LIST_BUFFER_LEN result).1)
        (to_ulong (to_int arg2))).1 = 0 →
      handle_kpm_list env hooks arg1 arg2 result =
        ⟨to_int (hooks.sukisu_kpm_list (zero_buffer KPM_LIST_BUFFER_LEN)
            KPM_LIST_BUFFER_LEN result).2,
          [Event.hook (.list (zero_buffer KPM_LIST_BUFFER_LEN) KPM_LIST_BUFFER_LEN),
            Event.copy_to_user arg1 (to_ulong (to_int arg2))
              ((hook_store (zero_buffer KPM_LIST_BUFFER_LEN)
                (hooks.sukisu_kpm_list (zero_buffer KPM_LIST_BUFFER_LEN)
                  KPM_LIST_BUFFER_LEN result).1).take (to_ulong (to_int arg2)))]⟩ ∧
      ((hook_store (zero_buffer KPM_LIST_BUFFER_LEN)
          (hooks.sukisu_kpm_list (zero_buffer KPM_LIST_BUFFER_LEN)
            KPM_LIST_BUFFER_LEN result).1).take (to_ulong (to_int arg2))).length =
        to_ulong (to_int arg2)) ∧
    (to_int (hooks.sukisu_kpm_list (zero_buffer KPM_LIST_BUFFER_LEN)
          KPM_LIST_BUFFER_LEN result).2 ≤ to_int arg2 →
      (copy_to_user env arg1
        (hook_store (zero_buffer KPM_LIST_BUFFER_LEN)
          (hooks.sukisu_kpm_list (zero_buffer KPM_LIST_BUFFER_LEN)
            KPM_LIST_BUFFER_LEN result).1)
        (to_ulong (to_int arg2))).1 ≠ 0 →
      (handle_kpm_list env hooks arg1 arg2 result).result = -EFAULT) := by
  have hlen : ¬ to_int arg2 ≤ 0 := by omega
  have hacc := hchk.2
  refine ⟨to_ulong_to_int_pos arg2 hpos, ?_, ?_, ?_⟩
  · intro hS
    simp [handle_kpm_list, hlen, hacc, hS]
  · intro hS hC hw
    have hS' : ¬ to_int (hooks.sukisu_kpm_list (zero_buffer KPM_LIST_BUFFER_LEN)
        KPM_LIST_BUFFER_LEN result).2 > to_int arg2 := by omega
    have hbuf : (hook_store (zero_buffer KPM_LIST_BUFFER_LEN)
        (hooks.sukisu_kpm_list (zero_buffer KPM_LIST_BUFFER_LEN)
          KPM_LIST_BUFFER_LEN result).1).length = KPM_LIST_BUFFER_LEN := by
      rw [hook_store_length]; simp [zero_buffer]
    have hb := copy_to_user_ok env arg1 _ _ hw (by rw [hbuf]; exact hC)
    refine ⟨?_, ?_⟩
    · simp only [handle_kpm_list, hlen, if_false, hacc, not_true_eq_false, hS', hw, ne_eq,
        hb]
      simp
    · rw [List.length_take, hbuf]
      exact Nat.min_eq_left hC
  · intro hS hw
    have hS' : ¬ to_int (hooks.sukisu_kpm_list (zero_buffer KPM_LIST_BUFFER_LEN)
        KPM_LIST_BUFFER_LEN result).2 > to_int arg2 := by omega
    simp only [handle_kpm_list, hlen, if_false, hacc, not_true_eq_false, hS', ne_eq, hw,
      not_false_eq_true, if_true]

/-- The theorem `handle_kpm_list_copy_out` at the capacity 8 with a hook that
reports the size 3 and a writable destination: eight NUL bytes are written and
the result is 3. -/
theorem handle_kpm_list_copy_out_witness :
    handle_kpm_list env_open hooks_list3 4096 8 (-1) =
      ⟨3, [Event.hook (.list (zero_buffer KPM_LIST_BUFFER_LEN) KPM_LIST_BUFFER_LEN),
        Event.copy_to_user 4096 8 [0, 0, 0, 0, 0, 0, 0, 0]]⟩ :=
  ((handle_kpm_list_copy_out env_open hooks_list3 4096 8 (-1) (by decide) ⟨rfl, rfl⟩).2.2.1
    (by decide) (by decide) (by decide)).1.trans (by decide)

/-- C5 as stated fails. The capacity 8 is positive, the destination range
`[4096, 4104)` passes `ksu_access_ok` (and so does the range the handler
tests), the hook reports the size 3, at most 8; the destination cannot be
written, so no byte is written instead of 8, and the result is `-EFAULT`,
not 3. -/
theorem handle_kpm_list_copy_fault :
    0 < to_int 8 ∧
    env_sealed.ksu_access_ok 4096 (to_ulong (to_int 8)) = true ∧
    env_sealed.ksu_access_ok 8 (to_ulong (to_int 8)) = true ∧
    to_int (hooks_list3.sukisu_kpm_list (zero_buffer KPM_LIST_BUFFER_LEN)
      KPM_LIST_BUFFER_LEN (-1)).2 = 3 ∧
    handle_kpm_list env_sealed hooks_list3 4096 8 (-1) =
      ⟨-EFAULT, [Event.hook (.list (zero_buffer KPM_LIST_BUFFER_LEN) KPM_LIST_BUFFER_LEN),
        Event.copy_to_user 4096 8 []]⟩ := by
  decide

/-- The number of bytes `handle_kpm_version` asks `copy_to_user` to copy is
`min(L, K - 1) + 1`, computed in the integers, for a string length `L` that
fits an `int` and `K = (unsigned int)arg2`; it is 0 when `K = 0`. -/
theorem handle_kpm_version_count (env : Env) (hooks : Hooks) (arg1 arg2 : Nat)
    (result : Int)
    (hL : c_strlen env (hook_store (zero_buffer KPM_BUFFER_LEN)
      (hooks.sukisu_kpm_version (zero_buffer KPM_BUFFER_LEN) KPM_BUFFER_LEN)) < 2 ^ 31) :
    ∃ n written,
      (handle_kpm_version env hooks arg1 arg2 result).events =
        [Event.hook (.version (zero_buffer KPM_BUFFER_LEN) KPM_BUFFER_LEN),
          Event.copy_to_user arg1 n written] ∧
      (n : Int) = min (c_strlen env (hook_store (zero_buffer KPM_BUFFER_LEN)
        (hooks.sukisu_kpm_version (zero_buffer KPM_BUFFER_LEN) KPM_BUFFER_LEN)) : Int)
          ((to_uint arg2 : Int) - 1) + 1 := by
  refine ⟨_, _, rfl, ?_⟩
  generalize c_strlen env (hook_store (zero_buffer KPM_BUFFER_LEN)
      (hooks.sukisu_kpm_version (zero_buffer KPM_BUFFER_LEN) KPM_BUFFER_LEN)) = L at hL ⊢
  have hK0 : (0 : Int) ≤ (arg2 : Int) % 2 ^ 32 := Int.emod_nonneg _ (by norm_num)
  have hK1 : (arg2 : Int) % 2 ^ 32 < 2 ^ 32 := Int.emod_lt_of_pos _ (by norm_num)
  have hK : ((to_uint arg2 : Nat) : Int) = (arg2 : Int) % 2 ^ 32 := by
    unfold to_uint; exact Int.toNat_of_nonneg hK0
  generalize to_uint arg2 = K at hK ⊢
  have hLi : to_int (L : Int) = L := to_int_of_range _ (by omega) (by omega)
  have hLu : to_uint (L : Int) = L := by
    unfold to_uint
    have : (L : Int) % 2 ^ 32 = L := Int.emod_eq_of_lt (by omega) (by omega)
    rw [this]; simp
  rw [hLi, hLu]
  by_cases hge : L ≥ K
  · simp only [hge, if_true]
    have hlen : to_int (to_uint ((K : Int) - 1)) = (K : Int) - 1 := by
      unfold to_int to_uint
      rw [Int.toNat_of_nonneg (Int.emod_nonneg _ (by norm_num))]
      omega
    rw [hlen]
    unfold to_ulong
    rw [Int.toNat_of_nonneg (Int.emod_nonneg _ (by norm_num))]
    omega
  · simp only [hge, if_false]
    unfold to_ulong
    rw [Int.toNat_of_nonneg (Int.emod_nonneg _ (by norm_num))]
    omega

/-- C6, at a version string of length 5 and the capacity 3. The version hook
leaves `1.2.3` in the staging buffer, `arg2 = 3`: `handle_kpm_version` copies
`min(5, 3 - 1) + 1 = 3` bytes to the destination, the bytes `1.2`, and the
last byte written is the character `2`, not the NUL terminator. -/
theorem handle_kpm_version_truncated :
    c_strlen env_open (hook_store (zero_buffer KPM_BUFFER_LEN)
      (hooks_version_123.sukisu_kpm_version (zero_buffer KPM_BUFFER_LEN) KPM_BUFFER_LEN)) = 5 ∧
    handle_kpm_version env_open hooks_version_123 4096 3 (-1) =
      ⟨0, [Event.hook (.version (zero_buffer KPM_BUFFER_LEN) KPM_BUFFER_LEN),
        Event.copy_to_user 4096 3 [49, 46, 50]]⟩ ∧
    [49, 46, 50].getLast? = some 50 := by
  decide

/-- C8, at a caller string of forty bytes and the 32-byte name buffer of
CONTROL. `copy_string_from_user` succeeds with 32, the buffer then holds 32
bytes `A` and no NUL, and `handle_kpm_control` passes that buffer to the
control hook as the name. -/
theorem copy_string_from_user_unterminated :
    copy_string_from_user env_long_name (some (zero_buffer KPM_NAME_LEN)) 1000 KPM_NAME_LEN =
      (32, some (List.replicate 32 65), [Event.strncpy_from_user 1000 32 32]) ∧
    0 ∉ List.replicate 32 65 ∧
    (handle_kpm_control env_long_name stub_hooks 1000 2000 (-1)).events =
      [Event.strncpy_from_user 1000 32 32, Event.strncpy_from_user 2000 1024 0,
        Event.hook (.control (List.replicate 32 65) (zero_buffer KPM_ARGS_LEN) 0)] := by
  decide

/-- C10, at INFO with the stub hooks. The stub leaves `size` as it found it,
and `handle_kpm_info` uses it: with the same caller memory, the same
arguments and the stubs, the content of the stack slot of `size` (0 or 5)
decides the result (0 or 5) when the output buffer cannot be written, and the
number of bytes written to the caller (none or five) when it can. -/
theorem handle_kpm_info_stub_uninit :
    (kpm_switch codes_28 env_sealed stub_hooks 31 4096 8192).result = 0 ∧
    (kpm_switch codes_28 { env_sealed with uninit_size := 5 } stub_hooks 31 4096 8192).result
      = 5 ∧
    (kpm_switch codes_28 env_open stub_hooks 31 4096 8192).events.getLast? =
      some (Event.copy_to_user 8192 0 []) ∧
    (kpm_switch codes_28 { env_open with uninit_size := 5 } stub_hooks 31 4096 8192
      ).events.getLast? = some (Event.copy_to_user 8192 5 [0, 0, 0, 0, 0]) := by
  decide

/-! ## Handlers that stage strings -/

theorem copy_string_from_user_ret_cases (env : Env) (dst : Option (List Byte))
    (src size : Nat) :
    (copy_string_from_user env dst src size).1 = -EINVAL ∨
    (copy_string_from_user env dst src size).1 = -EFAULT ∨
    (0 ≤ (copy_string_from_user env dst src size).1 ∧
      (copy_string_from_user env dst src size).1 ≤ size) := by
  cases dst with
  | none => left; rfl
  | some d =>
    simp only [copy_string_from_user]
    split_ifs
    · left; rfl
    · simp only [strncpy_from_user]
      rcases do_strncpy_from_user_ret env size src with h | h
      · right; left; exact h
      · right; right; exact h
    · right; left; rfl

theorem copy_string_from_user_to_int (env : Env) (dst : Option (List Byte))
    (src size : Nat) (h : (copy_string_from_user env dst src size).1 < 0) :
    to_int (copy_string_from_user env dst src size).1 =
      (copy_string_from_user env dst src size).1 := by
  rcases copy_string_from_user_ret_cases env dst src size with h1 | h1 | h1
  · rw [h1]; decide
  · rw [h1]; decide
  · omega

theorem copy_string_from_user_no_hook (env : Env) (dst : Option (List Byte))
    (src size : Nat) :
    ∀ e ∈ (copy_string_from_user env dst src size).2.2, e.isHook = false := by
  cases dst with
  | none => simp [copy_string_from_user]
  | some d =>
    simp only [copy_string_from_user]
    split_ifs <;> simp [Event.isHook]

/-- A copy that succeeds went through `strncpy_from_user`, once. -/
theorem copy_string_from_user_ok (env : Env) (d : List Byte) (src size : Nat)
    (h : 0 ≤ (copy_string_from_user env (some d) src size).1) :
    copy_string_from_user env (some d) src size =
      ((strncpy_from_user env d src size).1, some (strncpy_from_user env d src size).2,
        [Event.strncpy_from_user src size (strncpy_from_user env d src size).1]) := by
  simp only [copy_string_from_user] at h ⊢
  split_ifs at h ⊢
  · simp [EINVAL] at h
  · rfl
  · simp [EFAULT] at h

/-- C11, as the code has it. In LOAD (path and args), UNLOAD and INFO, when a
`copy_string_from_user` call fails with a negative code, the handler stops
with the result equal to that code, and its events are those of the copies
made so far; in CONTROL, when the copy of the name fails, the handler stops
with the result `-EINVAL` and the events of that copy.  No event of a copy is
a hook call, so the hook is not invoked. -/
theorem handlers_copy_failure (env : Env) (hooks : Hooks) (arg1 arg2 : Nat) (result : Int) :
    (arg1 ≠ 0 →
      (copy_string_from_user env (some (zero_buffer KPM_PATH_LEN)) arg1 KPM_PATH_LEN).1 < 0 →
      handle_kpm_load env hooks arg1 arg2 result =
        ⟨(copy_string_from_user env (some (zero_buffer KPM_PATH_LEN)) arg1 KPM_PATH_LEN).1,
          (copy_string_from_user env (some (zero_buffer KPM_PATH_LEN)) arg1 KPM_PATH_LEN).2.2⟩ ∧
      handle_kpm_unload env hooks arg1 result =
        ⟨(copy_string_from_user env (some (zero_buffer KPM_PATH_LEN)) arg1 KPM_PATH_LEN).1,
          (copy_string_from_user env (some (zero_buffer KPM_PATH_LEN)) arg1 KPM_PATH_LEN).2.2⟩) ∧
    (arg1 ≠ 0 → arg2 ≠ 0 →
      0 ≤ (copy_string_from_user env (some (zero_buffer KPM_PATH_LEN)) arg1 KPM_PATH_LEN).1 →
      (copy_string_from_user env (some (zero_buffer KPM_PATH_LEN)) arg2 KPM_PATH_LEN).1 < 0 →
      handle_kpm_load env hooks arg1 arg2 result =
        ⟨(copy_string_from_user env (some (zero_buffer KPM_PATH_LEN)) arg2 KPM_PATH_LEN).1,
          (copy_string_from_user env (some (zero_buffer KPM_PATH_LEN)) arg1 KPM_PATH_LEN).2.2 ++
          (copy_string_from_user env (some (zero_buffer KPM_PATH_LEN)) arg2 KPM_PATH_LEN).2.2⟩) ∧
    (arg1 ≠ 0 → arg2 ≠ 0 →
      (copy_string_from_user env (some (zero_buffer KPM_BUFFER_LEN)) arg1 KPM_BUFFER_LEN).1 < 0 →
      handle_kpm_info env hooks arg1 arg2 result =
        ⟨(copy_string_from_user env (some (zero_buffer KPM_BUFFER_LEN)) arg1 KPM_BUFFER_LEN).1,
          (copy_string_from_user env (some (zero_buffer KPM_BUFFER_LEN)) arg1
            KPM_BUFFER_LEN).2.2⟩) ∧
    (arg1 ≠ 0 → arg2 ≠ 0 →
      (copy_string_from_user env (some (zero_buffer KPM_NAME_LEN)) arg1 KPM_NAME_LEN).1 < 0 →
      handle_kpm_control env hooks arg1 arg2 result =
        ⟨-EINVAL,
          (copy_string_from_user env (some (zero_buffer KPM_NAME_LEN)) arg1 KPM_NAME_LEN).2.2⟩) ∧
    (∀ dst src size, ∀ e ∈ (copy_string_from_user env dst src size).2.2,
      e.isHook = false) := by
  refine ⟨?_, ?_, ?_, ?_, ?_⟩
  · intro h1 hneg
    have ht := copy_string_from_user_to_int env _ _ _ hneg
    constructor
    · simp only [handle_kpm_load, h1, if_false, hneg, if_true, ht]
    · simp only [handle_kpm_unload, h1, if_false, hneg, if_true, ht]
  · intro h1 h2 hpos hneg
    have ht := copy_string_from_user_to_int env _ _ _ hneg
    have hp : ¬ (copy_string_from_user env (some (zero_buffer KPM_PATH_LEN)) arg1
        KPM_PATH_LEN).1 < 0 := by omega
    simp only [handle_kpm_load, h1, if_false, hp, h2, ne_eq, not_false_eq_true, if_true,
      hneg, ht]
  · intro h1 h2 hneg
    have ht := copy_string_from_user_to_int env _ _ _ hneg
    have h0 : ¬ (arg1 = 0 ∨ arg2 = 0) := by tauto
    simp only [handle_kpm_info, h0, if_false, hneg, if_true, ht]
  · intro h1 h2 hneg
    have h0 : ¬ (arg1 = 0 ∨ arg2 = 0) := by tauto
    have hle : (copy_string_from_user env (some (zero_buffer KPM_NAME_LEN)) arg1
        KPM_NAME_LEN).1 ≤ 0 := by omega
    simp only [handle_kpm_control, h0, if_false, hle, if_true]
  · intro dst src size
    exact copy_string_from_user_no_hook env dst src size

/-- The theorem `handlers_copy_failure` where no range passes
`ksu_access_ok`: the copies fail with `-EFAULT` before any read, LOAD, UNLOAD
and INFO end with `-EFAULT`, CONTROL with `-EINVAL`. -/
theorem handlers_copy_failure_witness :
    handle_kpm_load env_no_access stub_hooks 4096 8192 (-1) = ⟨-EFAULT, []⟩ ∧
    handle_kpm_unload env_no_access stub_hooks 4096 (-1) = ⟨-EFAULT, []⟩ ∧
    handle_kpm_info env_no_access stub_hooks 4096 8192 (-1) = ⟨-EFAULT, []⟩ ∧
    handle_kpm_control env_no_access stub_hooks 4096 8192 (-1) = ⟨-EINVAL, []⟩ :=
  have h := handlers_copy_failure env_no_access stub_hooks 4096 8192 (-1)
  ⟨(h.1 (by decide) (by decide)).1, (h.1 (by decide) (by decide)).2,
    h.2.2.1 (by decide) (by decide) (by decide),
    h.2.2.2.1 (by decide) (by decide) (by decide)⟩

/-- C11 as stated fails for CONTROL. The copy of the name fails with
`-EFAULT`, and `handle_kpm_control` ends with the result `-EINVAL`, not with
that code. -/
theorem handle_kpm_control_copy_failure_code :
    (copy_string_from_user env_no_access (some (zero_buffer KPM_NAME_LEN)) 4096
      KPM_NAME_LEN).1 = -EFAULT ∧
    (handle_kpm_control env_no_access stub_hooks 4096 8192 (-1)).result = -EINVAL ∧
    -EINVAL ≠ -EFAULT := by
  decide

/-- C13. For LOAD with a non-null path address whose copy-in succeeds and
`arg2 = 0`, the events of `handle_kpm_load` are the read of the path and then
one call of the load hook, with the staged path, the zero-initialised args
buffer and a null `ptr`; the result is what the hook leaves in it. -/
theorem handle_kpm_load_no_args (env : Env) (hooks : Hooks) (arg1 : Nat) (result : Int)
    (h1 : arg1 ≠ 0)
    (hc : 0 ≤ (copy_string_from_user env (some (zero_buffer KPM_PATH_LEN)) arg1
      KPM_PATH_LEN).1) :
    handle_kpm_load env hooks arg1 0 result =
      ⟨to_int (hooks.sukisu_kpm_load_module_path
          (strncpy_from_user env (zero_buffer KPM_PATH_LEN) arg1 KPM_PATH_LEN).2
          (zero_buffer KPM_PATH_LEN) 0 result),
        [Event.strncpy_from_user arg1 KPM_PATH_LEN
            (strncpy_from_user env (zero_buffer KPM_PATH_LEN) arg1 KPM_PATH_LEN).1,
          Event.hook (.load_module_path
            (strncpy_from_user env (zero_buffer KPM_PATH_LEN) arg1 KPM_PATH_LEN).2
            (zero_buffer KPM_PATH_LEN) 0)]⟩ := by
  have hok := copy_string_from_user_ok env (zero_buffer KPM_PATH_LEN) arg1 KPM_PATH_LEN hc
  rw [hok] at hc
  have hp : ¬ (strncpy_from_user env (zero_buffer KPM_PATH_LEN) arg1 KPM_PATH_LEN).1 < 0 := by
    simpa using hc
  simp only [handle_kpm_load, h1, if_false, hok, hp, ne_eq, not_true_eq_false,
    Option.getD_some, List.singleton_append]

/-- The theorem `handle_kpm_load_no_args` at the path `A` with the stub
hooks: the hook is called once with the path and an empty args buffer, and
the result stays `-1`. -/
theorem handle_kpm_load_no_args_witness :
    handle_kpm_load env_user stub_hooks 4096 0 (-1) =
      ⟨-1, [Event.strncpy_from_user 4096 256 1,
        Event.hook (.load_module_path (65 :: List.replicate 255 0)
          (List.replicate 256 0) 0)]⟩ :=
  (handle_kpm_load_no_args env_user stub_hooks 4096 (-1) (by decide) (by decide)).trans
    (by decide)

/-- What `handle_kpm_control` does once the name is staged with a positive
length: it copies the args and calls the control hook with whatever that copy
returned as `arg_len`, negative codes included. -/
theorem handle_kpm_control_invokes_hook (env : Env) (hooks : Hooks) (arg1 arg2 : Nat)
    (result : Int) (h1 : arg1 ≠ 0) (h2 : arg2 ≠ 0)
    (hn : 0 < (copy_string_from_user env (some (zero_buffer KPM_NAME_LEN)) arg1
      KPM_NAME_LEN).1) :
    handle_kpm_control env hooks arg1 arg2 result =
      ⟨to_int (hooks.sukisu_kpm_control
          ((copy_string_from_user env (some (zero_buffer KPM_NAME_LEN)) arg1
            KPM_NAME_LEN).2.1.getD (zero_buffer KPM_NAME_LEN))
          ((copy_string_from_user env (some (zero_buffer KPM_ARGS_LEN)) arg2
            KPM_ARGS_LEN).2.1.getD (zero_buffer KPM_ARGS_LEN))
          (copy_string_from_user env (some (zero_buffer KPM_ARGS_LEN)) arg2 KPM_ARGS_LEN).1
          result),
        (copy_string_from_user env (some (zero_buffer KPM_NAME_LEN)) arg1 KPM_NAME_LEN).2.2 ++
        (copy_string_from_user env (some (zero_buffer KPM_ARGS_LEN)) arg2 KPM_ARGS_LEN).2.2 ++
        [Event.hook (.control
          ((copy_string_from_user env (some (zero_buffer KPM_NAME_LEN)) arg1
            KPM_NAME_LEN).2.1.getD (zero_buffer KPM_NAME_LEN))
          ((copy_string_from_user env (some (zero_buffer KPM_ARGS_LEN)) arg2
            KPM_ARGS_LEN).2.1.getD (zero_buffer KPM_ARGS_LEN))
          (copy_string_from_user env (some (zero_buffer KPM_ARGS_LEN)) arg2
            KPM_ARGS_LEN).1)]⟩ := by
  have h0 : ¬ (arg1 = 0 ∨ arg2 = 0) := by tauto
  have hle : ¬ (copy_string_from_user env (some (zero_buffer KPM_NAME_LEN)) arg1
      KPM_NAME_LEN).1 ≤ 0 := by omega
  simp only [handle_kpm_control, h0, if_false, hle]

/-- C16, at a valid name and an args address outside the user range. The
name `A` is staged with length 1, the copy of the args fails with `-EFAULT`,
and `handle_kpm_control` still calls the control hook, with an empty args
buffer and `arg_len = -14`. -/
theorem handle_kpm_control_negative_arg_len :
    (copy_string_from_user env_user (some (zero_buffer KPM_ARGS_LEN)) (2 ^ 63)
      KPM_ARGS_LEN).1 = -EFAULT ∧
    handle_kpm_control env_user stub_hooks 4096 (2 ^ 63) (-1) =
      ⟨-1, [Event.strncpy_from_user 4096 32 1,
        Event.hook (.control (65 :: List.replicate 31 0) (zero_buffer KPM_ARGS_LEN)
          (-14))]⟩ := by
  decide

/-- C17, at an info hook that reports 5 bytes and an output buffer that
cannot be written. `copy_to_user` copies nothing and returns 5, and
`handle_kpm_info` stores that count as the result: 5, a positive value,
where `handle_kpm_list` stores `-EFAULT` for a failed copy. -/
theorem handle_kpm_info_positive_on_fault :
    (handle_kpm_info env_sealed hooks_info5 4096 8192 (-1)).result = 5 ∧
    (handle_kpm_info env_sealed hooks_info5 4096 8192 (-1)).events.getLast? =
      some (Event.copy_to_user 8192 5 []) ∧
    (handle_kpm_list env_sealed hooks_list3 4096 8 (-1)).result = -EFAULT := by
  decide

/-! ## The range predicate and the ioctl entry -/

/-- C12. `sukisu_is_kpm_control_code(c)` is 1 when
`CMD_KPM_CONTROL ≤ c ≤ CMD_KPM_CONTROL_MAX` and 0 otherwise.  With the seven
command codes inside that range, every code the `switch` of the dispatcher
routes to a handler has the predicate 1: a code whose predicate is not 1
takes the default branch, which leaves `-EINVAL` and calls no handler. -/
theorem sukisu_is_kpm_control_code_range (k : Codes) (env : Env) (hooks : Hooks)
    (c arg1 arg2 : Nat) (hk : k.commands_in_range) :
    (k.CMD_KPM_CONTROL ≤ c ∧ c ≤ k.CMD_KPM_CONTROL_MAX →
      sukisu_is_kpm_control_code k c = 1) ∧
    (¬ (k.CMD_KPM_CONTROL ≤ c ∧ c ≤ k.CMD_KPM_CONTROL_MAX) →
      sukisu_is_kpm_control_code k c = 0) ∧
    (c ∈ k.commands → sukisu_is_kpm_control_code k c = 1) ∧
    (sukisu_is_kpm_control_code k c ≠ 1 →
      c ∉ k.commands ∧ kpm_switch k env hooks c arg1 arg2 = ⟨-EINVAL, []⟩) := by
  have hin : ∀ h : k.CMD_KPM_CONTROL ≤ c ∧ c ≤ k.CMD_KPM_CONTROL_MAX,
      sukisu_is_kpm_control_code k c = 1 := by
    intro h
    simp [sukisu_is_kpm_control_code, h]
  refine ⟨hin, ?_, ?_, ?_⟩
  · intro h
    have h' : ¬ (c ≥ k.CMD_KPM_CONTROL ∧ c ≤ k.CMD_KPM_CONTROL_MAX) := h
    simp only [sukisu_is_kpm_control_code, h', if_false]
  · intro hc
    exact hin (hk c hc)
  · intro hne
    have hn : c ∉ k.commands := fun hc => hne (hin (hk c hc))
    exact ⟨hn, kpm_switch_unknown k env hooks c arg1 arg2 hn⟩

theorem codes_28_in_range : codes_28.commands_in_range := by
  intro c hc
  simp only [Codes.commands, codes_28, List.mem_cons, List.mem_singleton, List.mem_nil_iff,
    or_false] at hc
  rcases hc with h | h | h | h | h | h | h <;> subst h <;> decide

/-- The theorem `sukisu_is_kpm_control_code_range` with the commands numbered
28 to 34 in the range `[28, 35]`: the code 30 has the predicate 1, the code 99
the predicate 0 and the default branch. -/
theorem sukisu_is_kpm_control_code_range_witness :
    sukisu_is_kpm_control_code codes_28 30 = 1 ∧
    sukisu_is_kpm_control_code codes_28 99 = 0 ∧
    kpm_switch codes_28 env_open stub_hooks 99 1 2 = ⟨-EINVAL, []⟩ :=
  ⟨(sukisu_is_kpm_control_code_range codes_28 env_open stub_hooks 30 1 2
      codes_28_in_range).2.2.1 (by decide),
    (sukisu_is_kpm_control_code_range codes_28 env_open stub_hooks 99 1 2
      codes_28_in_range).2.1 (by decide),
    ((sukisu_is_kpm_control_code_range codes_28 env_open stub_hooks 99 1 2
      codes_28_in_range).2.2.2 (by decide)).2⟩

theorem readable_span_length (env : Env) (n src : Nat) :
    (readable_span env src n).length ≤ n := by
  induction n generalizing src with
  | zero => simp [readable_span]
  | succ m ih =>
    simp only [readable_span]
    cases env.user_read src with
    | none => simp
    | some b => simpa using ih (src + 1)

theorem readable_span_full (env : Env) (n src : Nat)
    (h : (readable_span env src n).length = n) (i : Nat) (hi : i < n) :
    env.user_read (src + i) = (readable_span env src n)[i]? := by
  induction n generalizing src i with
  | zero => omega
  | succ m ih =>
    simp only [readable_span] at h ⊢
    cases hr : env.user_read src with
    | none => simp [hr] at h
    | some b =>
      simp only [hr, List.length_cons, Nat.add_right_cancel_iff] at h
      cases i with
      | zero => simp [hr]
      | succ j =>
        simp only [List.getElem?_cons_succ]
        rw [show src + (j + 1) = src + 1 + j by omega]
        exact ih (src + 1) h j (by omega)

/-- C14. `do_kpm` first copies `sizeof(cmd)` bytes of the envelope from the
caller.  When that copy fails it returns `-EFAULT` and does nothing else.
When it succeeds, all the bytes of the envelope were read before any field is
used; then, if `ksu_access_ok` fails for `sizeof(int)` bytes at the
`control_code` value or at the `result_code` address, it returns `-EFAULT`
with no other event (no handler, no hook, no result written); otherwise it
calls `sukisu_handle_kpm` with the four fields and returns what that returns,
which is 0. -/
theorem do_kpm_contract (k : Codes) (layout : CmdLayout) (env : Env) (hooks : Hooks)
    (arg : Nat) :
    ((copy_from_user env arg layout.size).1 ≠ 0 →
      do_kpm k layout env hooks arg =
        (-EFAULT, [Event.copy_from_user arg layout.size
          (copy_from_user env arg layout.size).1])) ∧
    ((copy_from_user env arg layout.size).1 = 0 →
      ((copy_from_user env arg layout.size).2.length = layout.size ∧
        ∀ i, i < layout.size →
          env.user_read (arg + i) = (copy_from_user env arg layout.size).2[i]?) ∧
      ((env.ksu_access_ok (layout.decode (copy_from_user env arg layout.size).2).control_code
            SIZEOF_INT = false ∨
          env.ksu_access_ok (layout.decode (copy_from_user env arg layout.size).2).result_code
            SIZEOF_INT = false) →
        do_kpm k layout env hooks arg =
          (-EFAULT, [Event.copy_from_user arg layout.size 0])) ∧
      (env.ksu_access_ok (layout.decode (copy_from_user env arg layout.size).2).control_code
            SIZEOF_INT = true →
        env.ksu_access_ok (layout.decode (copy_from_user env arg layout.size).2).result_code
            SIZEOF_INT = true →
        do_kpm k layout env hooks arg =
          (0, Event.copy_from_user arg layout.size 0 ::
            (sukisu_handle_kpm k env hooks
              (layout.decode (copy_from_user env arg layout.size).2).control_code
              (layout.decode (copy_from_user env arg layout.size).2).arg1
              (layout.decode (copy_from_user env arg layout.size).2).arg2
              (layout.decode (copy_from_user env arg layout.size).2).result_code).2))) := by
  refine ⟨?_, ?_⟩
  · intro h
    simp only [do_kpm, h, ne_eq, not_false_eq_true, if_true]
  · intro h
    have hlen := readable_span_length env layout.size arg
    have hfull : (readable_span env arg layout.size).length = layout.size := by
      simp only [copy_from_user] at h
      omega
    refine ⟨⟨?_, ?_⟩, ?_, ?_⟩
    · simp [copy_from_user, hfull]
    · intro i hi
      rw [readable_span_full env layout.size arg hfull i hi]
      simp only [copy_from_user]
      rw [List.getElem?_append_left (by omega)]
    · intro hor
      rcases hor with hc | hr
      · simp [do_kpm, h, hc]
      · simp [do_kpm, h, hr]
    · intro hc hr
      simp only [do_kpm, h, ne_eq, not_true_eq_false, if_false, hc, hr, sukisu_handle_kpm,
        List.singleton_append]

/-- The theorem `do_kpm_contract` at an envelope that holds the command 30
(NUM) and the result address 4096: the envelope is read, the count hook is
called and `-1` is written at the result address. -/
theorem do_kpm_contract_witness :
    do_kpm codes_28 layout_u64 env_cmd stub_hooks 512 =
      (0, [Event.copy_from_user 512 32 0, Event.hook HookCall.num,
        Event.copy_to_user 4096 4 [255, 255, 255, 255]]) :=
  ((do_kpm_contract codes_28 layout_u64 env_cmd stub_hooks 512).2 (by decide)).2.2 rfl rfl
    |>.trans (by decide)

/-- C15, at an output address outside the user range. The range
`[2 ^ 63, 2 ^ 63 + 16)` does not pass `ksu_access_ok`, but `handle_kpm_list`
tests `ksu_access_ok(arg2, len)`, the range that starts at the capacity 16:
the list hook is called, and the result is `-EFAULT` only once the copy has
failed; with a hook that reports 100 bytes it is `-ENOBUFS`. -/
theorem handle_kpm_list_checks_capacity_address :
    env_user.ksu_access_ok (2 ^ 63) 16 = false ∧
    handle_kpm_list env_user stub_hooks (2 ^ 63) 16 (-1) =
      ⟨-EFAULT, [Event.hook (.list (zero_buffer KPM_LIST_BUFFER_LEN) KPM_LIST_BUFFER_LEN),
        Event.copy_to_user (2 ^ 63) 16 []]⟩ ∧
    handle_kpm_list env_user hooks_list100 (2 ^ 63) 16 (-1) =
      ⟨-ENOBUFS,
        [Event.hook (.list (zero_buffer KPM_LIST_BUFFER_LEN) KPM_LIST_BUFFER_LEN)]⟩ := by
  decide

/-- C18, at LIST with the capacity 1028 and at INFO with a hook that reports
260 bytes. `handle_kpm_list` copies 1028 bytes out of its 1024-byte buffer and
`handle_kpm_info` 260 bytes out of its 256-byte buffer: in both, the bytes
sent to the caller after those of the buffer are the stack bytes that follow
it. -/
theorem handlers_copy_past_buffer :
    (handle_kpm_list env_user stub_hooks 8192 1028 (-1)).events.map
        (fun e => (e.isHook, e.written.length, e.written.drop KPM_LIST_BUFFER_LEN)) =
      [(true, 0, []), (false, 1028, [170, 187, 204, 221])] ∧
    (handle_kpm_info env_user hooks_info260 4096 8192 (-1)).events.getLast?.map
        (fun e => (e.written.length, e.written.drop KPM_BUFFER_LEN)) =
      some (260, [170, 187, 204, 221]) ∧
    env_user.stack = [170, 187, 204, 221] := by
  decide

end KPM
